import Mathlib

/-!
Verification of the TimeRate-Tracker workbook assembly engine.

The development shallowly embeds the two near-identical entry points of the
repository, `src/work_log.py` and `src/automate_excel.py`.  Worksheets are
modelled as total functions from addresses (row, column) to optional cell
values plus a font map, together with the merged-region bookkeeping that
openpyxl keeps per sheet: the list of merged ranges and the list of addresses
that are materialised as MergedCell objects (the non-anchor members).

Writing a value directly through a cell object (`cell.value = v`, as done by
automate_excel.clear_sheet_data and by both fill_daily_sheet variants) is
modelled as an update of the value map at the addressed cell; this is the
plain-cell semantics: openpyxl raises AttributeError when a materialised
MergedCell is assigned to, but the program only performs direct writes on
sheets produced by wb.copy_worksheet, whose cells are all plain because
openpyxl's WorksheetCopy recreates plain cells and copies only the merged
ranges (modelled by cloneSheet).  Routing a write through safe_set_cell
follows the redirection logic of the source.  Dates are
abstracted to their formatted MM-DD-YYYY strings since no claim depends on
calendar arithmetic, and the hourly rate is carried as a rational since the
code never computes with it (it only stores it and emits formulas).
-/

/-- A cell address: (row, column), both 1-based as in openpyxl. -/
abbrev Addr : Type := Nat × Nat

/-- A cell value: the program writes strings (labels, dates, formulas) and the
numeric rate; pandas records may also carry numbers. -/
inductive CellVal : Type where
  | str (s : String)
  | num (q : Rat)
deriving DecidableEq

/-- A font: either some pre-existing (template) font, identified by a tag, or
a fresh colour-only font as produced by `Font(color=...)` in the source. -/
inductive FontV : Type where
  | template (tag : Nat)
  | colorOnly (color : String)
deriving DecidableEq

/-- The green font `Font(color="008000")` from both fill_daily_sheet variants. -/
def greenFont : FontV := .colorOnly ("008000")

/-- The red font `Font(color="FF0000")` from both fill_daily_sheet variants. -/
def redFont : FontV := .colorOnly ("FF0000")

/-- A merged region of a sheet, as recorded in `ws.merged_cells.ranges`. -/
structure MRange : Type where
  minRow : Nat
  minCol : Nat
  maxRow : Nat
  maxCol : Nat
deriving DecidableEq

/-- Membership of an address in a merged range (`cell.coordinate in merged_range`). -/
def MRange.containsB (r : MRange) (a : Addr) : Bool :=
  decide (r.minRow ≤ a.1) && decide (a.1 ≤ r.maxRow) &&
    decide (r.minCol ≤ a.2) && decide (a.2 ≤ r.maxCol)

/-- The anchor (top-left) cell of a merged range:
`ws.cell(row=merged_range.min_row, column=merged_range.min_col)`. -/
def MRange.anchor (r : MRange) : Addr := (r.minRow, r.minCol)

/-- A worksheet.  `cells` is the stored value of every address (none = empty),
`fonts` the font of every address, `hasStyle` openpyxl's `has_style` flag,
`mergedCells` the addresses materialised as MergedCell objects (the non-anchor
members of merged regions), `mergedRanges` the recorded regions, and
`maxRow`/`maxCol` the used-range bounds that `iter_rows` consults. -/
structure Sheet : Type where
  cells : Addr → Option CellVal
  fonts : Addr → FontV
  hasStyle : Addr → Bool
  mergedRanges : List MRange
  mergedCells : List Addr
  maxRow : Nat
  maxCol : Nat
  freezePanes : Option Addr

/-- Direct value assignment `cell.value = v` on a plain cell: updates the
value at the address and (as instantiating a cell does in openpyxl) extends
the used range.  On a materialised MergedCell openpyxl raises AttributeError
instead of writing (a MergedCell's value is read-only and always None); the
program performs direct writes only on sheets produced by `copy_worksheet`,
which carry no MergedCell objects (see `cloneSheet`), and every concrete
input evaluated below keeps direct writes on plain cells, so this total
function models the write semantics on the domain the program exercises. -/
def setCellValue (s : Sheet) (a : Addr) (v : Option CellVal) : Sheet :=
  { s with cells := fun b => if b = a then v else s.cells b,
           maxRow := max s.maxRow a.1,
           maxCol := max s.maxCol a.2 }

/-- Font assignment `cell.font = f`; sets the `has_style` flag. -/
def setFont (s : Sheet) (a : Addr) (f : FontV) : Sheet :=
  { s with fonts := fun b => if b = a then f else s.fonts b,
           hasStyle := fun b => if b = a then true else s.hasStyle b }

/-- Whether the addressed cell is a MergedCell object (`isinstance(cell, MergedCell)`). -/
def isMergedCell (s : Sheet) (a : Addr) : Bool := s.mergedCells.contains a

/-- The first recorded merged range containing the address, scanning
`ws.merged_cells.ranges` in order as the source loop does. -/
def findMergedRange (ranges : List MRange) (a : Addr) : Option MRange :=
  ranges.find? (fun r => r.containsB a)

/-- `safe_set_cell(ws, cell_ref, value)` from work_log.py lines 33-45 and
automate_excel.py lines 30-42: if the addressed cell is a MergedCell, write to
the top-left cell of the first recorded region containing it (doing nothing if
no region contains it, which mirrors the fall-through of the source loop);
otherwise write directly. -/
def safe_set_cell (s : Sheet) (a : Addr) (v : Option CellVal) : Sheet :=
  if isMergedCell s a then
    match findMergedRange s.mergedRanges a with
    | some r => setCellValue s r.anchor v
    | none => s
  else
    setCellValue s a v

/-- The address a `safe_set_cell` call on `a` actually writes to
(none when the write is dropped because no recorded region contains a
MergedCell address). -/
def resolveTarget (s : Sheet) (a : Addr) : Option Addr :=
  if isMergedCell s a then (findMergedRange s.mergedRanges a).map MRange.anchor
  else some a

theorem setCellValue_cells (s : Sheet) (a : Addr) (v : Option CellVal) (b : Addr) :
    (setCellValue s a v).cells b = if b = a then v else s.cells b := rfl

theorem setCellValue_fonts (s : Sheet) (a : Addr) (v : Option CellVal) :
    (setCellValue s a v).fonts = s.fonts := rfl

theorem setCellValue_hasStyle (s : Sheet) (a : Addr) (v : Option CellVal) :
    (setCellValue s a v).hasStyle = s.hasStyle := rfl

theorem setCellValue_mergedCells (s : Sheet) (a : Addr) (v : Option CellVal) :
    (setCellValue s a v).mergedCells = s.mergedCells := rfl

theorem setCellValue_mergedRanges (s : Sheet) (a : Addr) (v : Option CellVal) :
    (setCellValue s a v).mergedRanges = s.mergedRanges := rfl

/-- Pointwise description of `safe_set_cell`: the cell map is updated at the
resolved target (if any) and nowhere else. -/
theorem safe_set_cell_cells (s : Sheet) (a : Addr) (v : Option CellVal) (b : Addr) :
    (safe_set_cell s a v).cells b =
      if resolveTarget s a = some b then v else s.cells b := by
  unfold safe_set_cell resolveTarget
  by_cases hm : isMergedCell s a
  · rw [if_pos hm, if_pos hm]
    cases hf : findMergedRange s.mergedRanges a with
    | none => simp
    | some r =>
      simp only [Option.map_some']
      rw [setCellValue_cells]
      by_cases hb : b = r.anchor
      · subst hb; simp
      · rw [if_neg hb, if_neg (fun h => hb (Option.some_injective _ h).symm)]
  · rw [if_neg hm, if_neg hm]
    rw [setCellValue_cells]
    by_cases hb : b = a
    · subst hb; simp
    · rw [if_neg hb, if_neg (fun h => hb (Option.some_injective _ h).symm)]

theorem safe_set_cell_fonts (s : Sheet) (a : Addr) (v : Option CellVal) :
    (safe_set_cell s a v).fonts = s.fonts := by
  unfold safe_set_cell
  by_cases hm : isMergedCell s a
  · simp only [hm, if_true]
    cases hf : findMergedRange s.mergedRanges a <;> simp [setCellValue_fonts]
  · simp [hm, setCellValue_fonts]

theorem safe_set_cell_mergedCells (s : Sheet) (a : Addr) (v : Option CellVal) :
    (safe_set_cell s a v).mergedCells = s.mergedCells := by
  unfold safe_set_cell
  by_cases hm : isMergedCell s a
  · simp only [hm, if_true]
    cases hf : findMergedRange s.mergedRanges a <;> simp [setCellValue_mergedCells]
  · simp [hm, setCellValue_mergedCells]

theorem safe_set_cell_mergedRanges (s : Sheet) (a : Addr) (v : Option CellVal) :
    (safe_set_cell s a v).mergedRanges = s.mergedRanges := by
  unfold safe_set_cell
  by_cases hm : isMergedCell s a
  · simp only [hm, if_true]
    cases hf : findMergedRange s.mergedRanges a <;> simp [setCellValue_mergedRanges]
  · simp [hm, setCellValue_mergedRanges]

/-- `resolveTarget` only depends on the merged-region bookkeeping, which no
value write changes. -/
theorem resolveTarget_safe_set_cell (s : Sheet) (w : Addr) (v : Option CellVal) (a : Addr) :
    resolveTarget (safe_set_cell s w v) a = resolveTarget s a := by
  unfold resolveTarget isMergedCell findMergedRange
  rw [safe_set_cell_mergedCells, safe_set_cell_mergedRanges]

/-- An ingested work-log record, one row of the pandas DataFrame after
`to_dict(orient="records")`.  `rec.get(key, "")` defaults to the empty string,
so fields are total; an unparseable or absent Date is `none`.  Dates are
abstracted to their formatted MM-DD-YYYY strings. -/
structure Rec : Type where
  number : CellVal
  description : CellVal
  hr : CellVal
  minField : CellVal
  complete : CellVal
  followUp : CellVal
  comments : CellVal
  date : Option String
deriving DecidableEq

/-- Field access by column index, mirroring the fixed column order
Number, Daily Work Description, Hr, Min, Complete, Follow up,
Supervisor Comments used by both fill_daily_sheet variants. -/
def Rec.get (r : Rec) (c : Nat) : CellVal :=
  match c with
  | 1 => r.number
  | 2 => r.description
  | 3 => r.hr
  | 4 => r.minField
  | 5 => r.complete
  | 6 => r.followUp
  | 7 => r.comments
  | _ => .str ("")

/-- The combined pandas DataFrame: its rows, and whether a Date column is
present (`"Date" in df.columns`). -/
structure DataFrame : Type where
  hasDateCol : Bool
  rows : List Rec

/-- Record selection of work_log.fill_daily_sheet lines 259-262: filter by the
Date column when the frame is non-empty and carries one, otherwise keep all. -/
def selectRecords (df : DataFrame) (dateObj : String) : List Rec :=
  if !df.rows.isEmpty && df.hasDateCol then
    df.rows.filter (fun r => r.date == some dateObj)
  else
    df.rows

/-- Record selection of automate_excel.fill_daily_sheet lines 298-305: empty
unless `is_dataframe` holds and the frame is non-empty; then filter by Date
when that column exists. -/
def selectRecordsAuto (isDataframe : Bool) (df : DataFrame) (dateObj : String) : List Rec :=
  if isDataframe && !df.rows.isEmpty then
    if df.hasDateCol then df.rows.filter (fun r => r.date == some dateObj)
    else df.rows
  else
    []

/-- The two selections agree whenever `is_dataframe` is passed as True, which
every caller in the source does. -/
theorem selectRecordsAuto_eq_selectRecords (df : DataFrame) (d : String) :
    selectRecordsAuto true df d = selectRecords df d := by
  unfold selectRecordsAuto selectRecords
  cases he : df.rows.isEmpty
  · simp [he]
  · cases hd : df.hasDateCol <;>
      simp [he, hd, List.isEmpty_iff.mp he]

/-- Python default `str.strip()` whitespace (the ASCII portion). -/
def pyWhite (c : Char) : Bool :=
  c = ' ' || c = '\t' || c = '\n' || c = '\x0d' || c = '\x0b' || c = '\x0c'

/-- Python `str.strip()`: drop leading and trailing whitespace. -/
def pyStrip (s : String) : String :=
  String.mk (((s.data.dropWhile pyWhite).reverse.dropWhile pyWhite).reverse)

/-- Python `str.lower()` (the ASCII portion, which is all the comparisons in
the source use), kept kernel-computable. -/
def pyLower (s : String) : String := String.mk (s.data.map Char.toLower)

/-- The conditional font override of work_log.fill_daily_sheet lines 273-279,
as a function of the font the cell carries after style propagation and the
CompletionFlag value: strings stripping and lower-casing to "yes" turn green,
to "no" turn red, anything else keeps the current font. -/
def completeFontWl (cur : FontV) (v : CellVal) : FontV :=
  match v with
  | .str val =>
    if pyLower (pyStrip val) = ("yes") then greenFont
    else if pyLower (pyStrip val) = ("no") then redFont
    else cur
  | _ => cur

/-- The conditional font override of automate_excel.fill_daily_sheet lines
330-334: the same decision without the whitespace strip. -/
def completeFontAuto (cur : FontV) (v : CellVal) : FontV :=
  match v with
  | .str val =>
    if pyLower val = ("yes") then greenFont
    else if pyLower val = ("no") then redFont
    else cur
  | _ => cur

/-- The style reference row of work_log.py (`TEMPLATE_STYLE_ROW = 7`). -/
def TEMPLATE_STYLE_ROW : Nat := 7

/-- `copy_cell_style(src_cell, dst_cell)` from work_log.py lines 50-60,
restricted to the font attribute (the only style attribute any claim
mentions); a no-op when the source carries no explicit style. -/
def copy_cell_style (s : Sheet) (src dst : Addr) : Sheet :=
  if s.hasStyle src then setFont s dst (s.fonts src) else s

/-- The conditional font assignment of work_log.fill_daily_sheet lines
273-279, acting on the Complete cell. -/
def wlFontOverride (s : Sheet) (a : Addr) (v : CellVal) : Sheet :=
  match v with
  | .str val =>
    if pyLower (pyStrip val) = ("yes") then setFont s a greenFont
    else if pyLower (pyStrip val) = ("no") then setFont s a redFont
    else s
  | _ => s

/-- The conditional font assignment of automate_excel.fill_daily_sheet lines
330-334, acting on the Complete cell. -/
def autoFontOverride (s : Sheet) (a : Addr) (v : CellVal) : Sheet :=
  match v with
  | .str val =>
    if pyLower val = ("yes") then setFont s a greenFont
    else if pyLower val = ("no") then setFont s a redFont
    else s
  | _ => s

/-- One iteration of the per-column loop of work_log.fill_daily_sheet lines
266-279: write the field value, propagate the style from TEMPLATE_STYLE_ROW,
and apply the conditional font override on the Complete column. -/
def wlColStep (s : Sheet) (row c : Nat) (rec : Rec) : Sheet :=
  let v := rec.get c
  let s1 := setCellValue s (row, c) (some v)
  let s2 := copy_cell_style s1 (TEMPLATE_STYLE_ROW, c) (row, c)
  if c = 5 then wlFontOverride s2 (row, c) v else s2

/-- The column indices the populators walk, `enumerate(keys, start=1)`. -/
def colIdxs : List Nat := [1, 2, 3, 4, 5, 6, 7]

/-- Writing one record in work_log.fill_daily_sheet: the inner for-loop over
the seven columns. -/
def writeRecWl (s : Sheet) (row : Nat) (rec : Rec) : Sheet :=
  colIdxs.foldl (fun t c => wlColStep t row c rec) s

/-- Writing one record in automate_excel.fill_daily_sheet lines 322-337:
straight-line direct writes of the seven fields plus the conditional font on
the Complete cell.  No style propagation in this variant. -/
def writeRecAuto (s : Sheet) (row : Nat) (rec : Rec) : Sheet :=
  let s1 := setCellValue s (row, 1) (some rec.number)
  let s2 := setCellValue s1 (row, 2) (some rec.description)
  let s3 := setCellValue s2 (row, 3) (some rec.hr)
  let s4 := setCellValue s3 (row, 4) (some rec.minField)
  let s5 := setCellValue s4 (row, 5) (some rec.complete)
  let s6 := autoFontOverride s5 (row, 5) rec.complete
  let s7 := setCellValue s6 (row, 6) (some rec.followUp)
  setCellValue s7 (row, 7) (some rec.comments)

/-- The record loop of work_log.fill_daily_sheet lines 264-280: write each
record at `current`, incrementing the row counter. -/
def fillLoopWl (s : Sheet) (recs : List Rec) (current : Nat) : Sheet × Nat :=
  match recs with
  | [] => (s, current)
  | rec :: rest => fillLoopWl (writeRecWl s current rec) rest (current + 1)

/-- The record loop of automate_excel.fill_daily_sheet lines 320-338. -/
def fillLoopAuto (s : Sheet) (recs : List Rec) (current : Nat) : Sheet × Nat :=
  match recs with
  | [] => (s, current)
  | rec :: rest => fillLoopAuto (writeRecAuto s current rec) rest (current + 1)

/-- `fill_daily_sheet` of work_log.py lines 251-283: select the records for
the day, write them from `startRow` on, and return `current - 1` as the last
row used. -/
def fill_daily_sheet_wl (s : Sheet) (dateObj : String) (df : DataFrame)
    (startRow : Nat) : Sheet × Int :=
  let records := selectRecords df dateObj
  let p := fillLoopWl s records startRow
  (p.1, (p.2 : Int) - 1)

/-- The fixed header labels written into row 6 by automate_excel. -/
def headerLabels : List String :=
  ["Number", "Daily Work Description", "Hr", "Min", "Complete", "Follow up",
   "Supervisor Comments"]

/-- The header loop of automate_excel.fill_daily_sheet lines 316-318:
`sheet.cell(row=6, column=col_idx).value = header` for each label. -/
def writeHeaderRow (s : Sheet) : Sheet :=
  (headerLabels.foldl
    (fun (p : Sheet × Nat) h => (setCellValue p.1 (6, p.2) (some (.str h)), p.2 + 1))
    (s, 1)).1

/-- `fill_daily_sheet` of automate_excel.py lines 290-342: stamp B1 (and B3
when a fallback date is supplied and no records exist), freeze panes at A7,
write the row-6 headers, then write the records and return the last row. -/
def fill_daily_sheet_auto (s : Sheet) (dateObj : String) (df : DataFrame)
    (isDataframe : Bool) (startRow : Nat) (fallbackDate : Option String)
    (today : String) : Sheet × Int :=
  let records := selectRecordsAuto isDataframe df dateObj
  let s1 :=
    if records.isEmpty then
      let sa := setCellValue s (1, 2) (some (.str today))
      match fallbackDate with
      | some fb => setCellValue sa (3, 2) (some (.str fb))
      | none => sa
    else
      setCellValue s (1, 2) (some (.str dateObj))
  let s2 := { s1 with freezePanes := some (7, 1) }
  let s3 := writeHeaderRow s2
  let p := fillLoopAuto s3 records startRow
  (p.1, (p.2 : Int) - 1)

/-- The addresses `iter_rows(min_row=minR, max_row=maxR)` visits: every
(row, col) with minR ≤ row ≤ maxR and 1 ≤ col ≤ maxC, in row-major order. -/
def rowColAddrs (minR maxR maxC : Nat) : List Addr :=
  (List.range' minR (maxR + 1 - minR)).flatMap
    (fun r => (List.range' 1 maxC).map (fun c => (r, c)))

theorem mem_rowColAddrs {minR maxR maxC : Nat} {a : Addr} :
    a ∈ rowColAddrs minR maxR maxC ↔
      (minR ≤ a.1 ∧ a.1 ≤ maxR ∧ 1 ≤ a.2 ∧ a.2 ≤ maxC) := by
  unfold rowColAddrs
  rcases a with ⟨r, c⟩
  simp only [List.mem_flatMap, List.mem_map, List.mem_range'_1]
  constructor
  · rintro ⟨r0, ⟨hr1, hr2⟩, c0, ⟨hc1, hc2⟩, he⟩
    cases he
    exact ⟨hr1, by omega, hc1, by omega⟩
  · rintro ⟨h1, h2, h3, h4⟩
    exact ⟨r, ⟨h1, by omega⟩, c, ⟨h3, by omega⟩, rfl⟩

/-- `clear_sheet_data(sheet, start_row)` of automate_excel.py lines 47-54:
direct `cell.value = None` on every used-range cell from `startRow` down. -/
def clear_sheet_data_auto (s : Sheet) (startRow : Nat) : Sheet :=
  (rowColAddrs startRow s.maxRow s.maxCol).foldl
    (fun t a => setCellValue t a none) s

/-- `clear_sheet_data(ws, start_row)` of work_log.py lines 65-72: the same
sweep, but each write is routed through `safe_set_cell`. -/
def clear_sheet_data_wl (s : Sheet) (startRow : Nat) : Sheet :=
  (rowColAddrs startRow s.maxRow s.maxCol).foldl
    (fun t a => safe_set_cell t a none) s

/-- A fold of direct clears empties exactly the listed addresses. -/
theorem foldl_setCellValue_none_cells (L : List Addr) (s : Sheet) (a : Addr) :
    (L.foldl (fun t b => setCellValue t b none) s).cells a =
      if a ∈ L then none else s.cells a := by
  induction L generalizing s with
  | nil => simp
  | cons b L ih =>
    rw [List.foldl_cons, ih]
    by_cases hL : a ∈ L
    · simp [hL]
    · rw [if_neg hL, setCellValue_cells]
      by_cases hb : a = b
      · subst hb; simp
      · rw [if_neg hb, if_neg (by simp [hb, hL])]

theorem foldl_setCellValue_none_fonts (L : List Addr) (s : Sheet) :
    (L.foldl (fun t b => setCellValue t b none) s).fonts = s.fonts := by
  induction L generalizing s with
  | nil => rfl
  | cons b L ih => rw [List.foldl_cons, ih, setCellValue_fonts]

theorem foldl_setCellValue_none_mergedCells (L : List Addr) (s : Sheet) :
    (L.foldl (fun t b => setCellValue t b none) s).mergedCells = s.mergedCells := by
  induction L generalizing s with
  | nil => rfl
  | cons b L ih => rw [List.foldl_cons, ih, setCellValue_mergedCells]

/-- A fold of `safe_set_cell` clears empties exactly the resolved targets of
the listed addresses (resolution is stable because value writes leave the
merged-region bookkeeping untouched). -/
theorem foldl_safe_set_cell_none_cells (L : List Addr) (s : Sheet) (a : Addr) :
    (L.foldl (fun t b => safe_set_cell t b none) s).cells a =
      if ∃ b ∈ L, resolveTarget s b = some a then none else s.cells a := by
  induction L generalizing s with
  | nil => simp
  | cons b L ih =>
    rw [List.foldl_cons, ih]
    have hres : ∀ x, resolveTarget (safe_set_cell s b none) x = resolveTarget s x :=
      fun x => resolveTarget_safe_set_cell s b none x
    by_cases hL : ∃ x ∈ L, resolveTarget s x = some a
    · rw [if_pos (by simpa [hres] using hL),
        if_pos ⟨hL.choose, List.mem_cons_of_mem _ hL.choose_spec.1, hL.choose_spec.2⟩]
    · rw [if_neg (by simpa [hres] using hL), safe_set_cell_cells]
      by_cases hb : resolveTarget s b = some a
      · rw [if_pos hb, if_pos ⟨b, List.mem_cons_self b L, hb⟩]
      · rw [if_neg hb, if_neg ?_]
        rintro ⟨x, hx, hxt⟩
        rcases List.mem_cons.mp hx with h | h
        · exact hb (h ▸ hxt)
        · exact hL ⟨x, h, hxt⟩

theorem foldl_safe_set_cell_none_fonts (L : List Addr) (s : Sheet) :
    (L.foldl (fun t b => safe_set_cell t b none) s).fonts = s.fonts := by
  induction L generalizing s with
  | nil => rfl
  | cons b L ih => rw [List.foldl_cons, ih, safe_set_cell_fonts]

/-- Ordering of `sorted(daily_info.items())`: Python sorts the dict items by
their (unique) sheet-name keys, lexicographically. -/
def infoKeyLE (a b : String × Int × Int) : Prop := a.1 ≤ b.1

instance : DecidableRel infoKeyLE :=
  fun a b => inferInstanceAs (Decidable (a.1 ≤ b.1))

instance : IsTotal (String × Int × Int) infoKeyLE :=
  ⟨fun a b => le_total a.1 b.1⟩

instance : IsTrans (String × Int × Int) infoKeyLE :=
  ⟨fun _ _ _ h1 h2 => le_trans h1 h2⟩

/-- `sorted(daily_info.items())`, modelled by a stable sort on the keys. -/
def sortDailyInfo (info : List (String × Int × Int)) : List (String × Int × Int) :=
  List.insertionSort infoKeyLE info

/-- The hour formula emitted for one summary row, work_log.py lines 306-309 and
automate_excel.py lines 362-365. -/
def hour_formula (name : String) (startRow lastRow : Int) : String :=
  "=SUM(\x27" ++ name ++ "\x27!C" ++ toString startRow ++ ":C" ++ toString lastRow ++
    ") + (SUM(\x27" ++ name ++ "\x27!D" ++ toString startRow ++ ":D" ++ toString lastRow ++
    ")/60)"

/-- The cost formula emitted for one summary row (`=C{row}*D{row}`). -/
def cost_formula (rowIdx : Nat) : String :=
  "=C" ++ toString rowIdx ++ "*D" ++ toString rowIdx

/-- One emitted summary row: at which Total-sheet row it lands and for which
daily sheet and row range it was produced. -/
structure SummaryRow : Type where
  rowIdx : Nat
  name : String
  firstRow : Int
  lastRow : Int
deriving DecidableEq

/-- The emission pattern of the summary loop (work_log.py lines 301-314,
automate_excel.py lines 357-370): walk the sorted items, skip a sheet whose
range is degenerate, and advance the row counter only on emission. -/
def summaryRowsLoop (items : List (String × Int × Int)) (rowIdx : Nat) :
    List SummaryRow :=
  match items with
  | [] => []
  | (name, sr, lr) :: rest =>
    if lr < sr then summaryRowsLoop rest rowIdx
    else ⟨rowIdx, name, sr, lr⟩ :: summaryRowsLoop rest (rowIdx + 1)

/-- All summary rows the Aggregator emits for a given daily_info mapping. -/
def summaryRows (info : List (String × Int × Int)) : List SummaryRow :=
  summaryRowsLoop (sortDailyInfo info) 4

/-- The write-out loop of `update_total_sheet` (work_log.py lines 301-314,
automate_excel.py lines 357-370): for each non-degenerate sorted item, write
name, hour formula, rate and cost formula to columns B..E of the current row
through `safe_set_cell`, then advance the row counter. -/
def totalLoop (ts : Sheet) (items : List (String × Int × Int)) (rate : Rat)
    (rowIdx : Nat) : Sheet :=
  match items with
  | [] => ts
  | (name, sr, lr) :: rest =>
    if lr < sr then totalLoop ts rest rate rowIdx
    else
      let t1 := safe_set_cell ts (rowIdx, 2) (some (.str name))
      let t2 := safe_set_cell t1 (rowIdx, 3) (some (.str (hour_formula name sr lr)))
      let t3 := safe_set_cell t2 (rowIdx, 4) (some (.num rate))
      let t4 := safe_set_cell t3 (rowIdx, 5) (some (.str (cost_formula rowIdx)))
      totalLoop t4 rest rate (rowIdx + 1)

/-- `update_total_sheet(total_sheet, daily_info, rate)` of work_log.py lines
288-314 and automate_excel.py lines 347-370: clear everything from row 4 down
with direct writes, then run the emission loop over the sorted items from
row 4. -/
def update_total_sheet (ts : Sheet) (info : List (String × Int × Int))
    (rate : Rat) : Sheet :=
  let cleared := (rowColAddrs 4 ts.maxRow ts.maxCol).foldl
    (fun t a => setCellValue t a none) ts
  totalLoop cleared (sortDailyInfo info) rate 4

/-- The workbook: an ordered list of (title, sheet) pairs, titles unique. -/
structure Workbook : Type where
  sheets : List (String × Sheet)

def Workbook.sheetnames (wb : Workbook) : List String := wb.sheets.map Prod.fst

def Workbook.getSheet (wb : Workbook) (t : String) : Option Sheet :=
  (wb.sheets.find? (fun p => p.1 == t)).map Prod.snd

/-- Modelled from openpyxl (the library code the repository delegates sheet
naming to): `avoid_duplicate_name(names, value)` leaves a fresh title alone
and otherwise appends one plus the highest numeric suffix already carried by
`value` among the sheet names.  (The library scans a comma-join of the names
with a regex; whole-name matches, the only ones arising from sheet titles
produced this way, are modelled here.) -/
def digitsToNat (l : List Char) : Nat :=
  l.foldl (fun acc c => acc * 10 + (c.toNat - 48)) 0

def titleSuffixCount (value n : String) : Option Nat :=
  if value.data.isPrefixOf n.data then
    let rest := n.data.drop value.data.length
    if rest.length > 0 && rest.all Char.isDigit then some (digitsToNat rest)
    else none
  else none

def avoid_duplicate_name (names : List String) (value : String) : String :=
  if names.contains value then
    value ++ toString ((names.filterMap (titleSuffixCount value)).foldl max 0 + 1)
  else value

def TEMPLATE_SHEET_NAME : String := "Template"

def TOTAL_SHEET_NAME : String := "Total"

/-- Modelled from openpyxl's WorksheetCopy: the copier recreates every target
cell as a plain Cell (copying values and styles) and copies the merged RANGES,
but materialises no MergedCell objects on the copy — a cloned sheet therefore
never answers true to `isinstance(cell, MergedCell)`. -/
def cloneSheet (sh : Sheet) : Sheet := { sh with mergedCells := [] }

/-- Modelled from openpyxl: `wb.copy_worksheet(src)` appends a copy of the
source sheet (per `cloneSheet`) under the title `"<src> Copy"` (deduplicated).
Returns the new title; the source is looked up by title (callers guarantee
presence). -/
def copy_worksheet (wb : Workbook) (srcTitle : String) : Workbook × String :=
  match wb.getSheet srcTitle with
  | none => (wb, "")
  | some sh =>
    let t := avoid_duplicate_name wb.sheetnames (srcTitle ++ (" Copy"))
    (⟨wb.sheets ++ [(t, cloneSheet sh)]⟩, t)

/-- Modelled from openpyxl: the `Worksheet.title` setter returns early when
the title is unchanged and otherwise installs the deduplicated name.  Returns
the title actually installed. -/
def setSheetTitle (wb : Workbook) (old newT : String) : Workbook × String :=
  if old = newT then (wb, old)
  else
    let v := avoid_duplicate_name wb.sheetnames newT
    (⟨wb.sheets.map (fun p => if p.1 = old then (v, p.2) else p)⟩, v)

/-- The Cloner of the spec: the two lines
`new_sheet = wb.copy_worksheet(wb[TEMPLATE_SHEET_NAME]); new_sheet.title = name`
appearing at work_log.py lines 384-385 and automate_excel.py lines 486-487.
Returns the workbook and the title the clone finally carries. -/
def cloneTemplate (wb : Workbook) (newName : String) : Workbook × String :=
  let p := copy_worksheet wb TEMPLATE_SHEET_NAME
  setSheetTitle p.1 p.2 newName

/-- Replace the sheet carrying a title by a transformed sheet, returning the
loop-carried integer result of the transformation (the in-place mutation of a
sheet object held by the workbook). -/
def Workbook.modifySheetR (wb : Workbook) (t : String) (f : Sheet → Sheet × Int) :
    Workbook × Int :=
  match wb.getSheet t with
  | none => (wb, 0)
  | some sh =>
    let p := f sh
    (⟨wb.sheets.map (fun q => if q.1 = t then (q.1, p.1) else q)⟩, p.2)

def Workbook.modifySheet (wb : Workbook) (t : String) (f : Sheet → Sheet) : Workbook :=
  ⟨wb.sheets.map (fun q => if q.1 = t then (q.1, f q.2) else q)⟩

/-- A freshly created worksheet (`wb.create_sheet`): no values, no styles, no
merged regions. -/
def newWorksheet : Sheet :=
  { cells := fun _ => none, fonts := fun _ => FontV.template 0,
    hasStyle := fun _ => false, mergedRanges := [], mergedCells := [],
    maxRow := 1, maxCol := 1, freezePanes := none }

/-- `create_or_update_total_sheet(wb, daily_info, rate)` of work_log.py lines
319-335 and automate_excel.py lines 375-391: ensure a Total sheet exists,
write the B3..E3 headers through safe_set_cell, rebuild the summary, freeze
at A4. -/
def create_or_update_total_sheet (wb : Workbook) (info : List (String × Int × Int))
    (rate : Rat) : Workbook :=
  let wb1 := if wb.sheetnames.contains TOTAL_SHEET_NAME then wb
    else ⟨wb.sheets ++ [(TOTAL_SHEET_NAME, newWorksheet)]⟩
  wb1.modifySheet TOTAL_SHEET_NAME (fun ts =>
    let t1 := safe_set_cell ts (3, 2) (some (.str ("Date")))
    let t2 := safe_set_cell t1 (3, 3) (some (.str ("Hour")))
    let t3 := safe_set_cell t2 (3, 4) (some (.str ("Rate")))
    let t4 := safe_set_cell t3 (3, 5) (some (.str ("Total Cost")))
    let t5 := update_total_sheet t4 info rate
    { t5 with freezePanes := some (4, 1) })

/-- The no-dates branch of automate_excel.main, lines 426-447: one sheet for
today, cloned, wiped, filled against the combined frame with today as the
fallback date, then the Total sheet is rebuilt from the recorded range.
Returns the workbook and the recorded daily_info. -/
def runNoDates (wb : Workbook) (today : String) (combined : DataFrame)
    (rate : Rat) : Workbook × List (String × Int × Int) :=
  let c := cloneTemplate wb today
  let p := c.1.modifySheetR c.2 (fun sh =>
    let sh1 := clear_sheet_data_auto sh 7
    fill_daily_sheet_auto sh1 today combined true 7 (some today) today)
  let dailyInfo := [(today, ((7 : Int), p.2))]
  (create_or_update_total_sheet p.1 dailyInfo rate, dailyInfo)

theorem fillLoopWl_snd (recs : List Rec) (s : Sheet) (cur : Nat) :
    (fillLoopWl s recs cur).2 = cur + recs.length := by
  induction recs generalizing s cur with
  | nil => simp [fillLoopWl]
  | cons r rest ih => rw [fillLoopWl, ih]; simp only [List.length_cons]; omega

theorem fillLoopAuto_snd (recs : List Rec) (s : Sheet) (cur : Nat) :
    (fillLoopAuto s recs cur).2 = cur + recs.length := by
  induction recs generalizing s cur with
  | nil => simp [fillLoopAuto]
  | cons r rest ih => rw [fillLoopAuto, ih]; simp only [List.length_cons]; omega

/-- C1: For every daily-sheet population with a subset of N records written
starting at row R (R = 7 in every call of the source), both fill_daily_sheet
variants return R + N - 1 when N > 0 and R - 1 when N = 0, N being the number
of records selected for the day. -/
theorem C1_populator_last_row (s sa : Sheet) (dateObj today : String)
    (df : DataFrame) (fallbackDate : Option String) (startRow : Nat) :
    (0 < (selectRecords df dateObj).length →
      (fill_daily_sheet_wl s dateObj df startRow).2 =
        (startRow : Int) + (selectRecords df dateObj).length - 1) ∧
    ((selectRecords df dateObj).length = 0 →
      (fill_daily_sheet_wl s dateObj df startRow).2 = (startRow : Int) - 1) ∧
    (0 < (selectRecordsAuto true df dateObj).length →
      (fill_daily_sheet_auto sa dateObj df true startRow fallbackDate today).2 =
        (startRow : Int) + (selectRecordsAuto true df dateObj).length - 1) ∧
    ((selectRecordsAuto true df dateObj).length = 0 →
      (fill_daily_sheet_auto sa dateObj df true startRow fallbackDate today).2 =
        (startRow : Int) - 1) := by
  refine ⟨fun _ => ?_, fun h0 => ?_, fun _ => ?_, fun h0 => ?_⟩
  · show ((fillLoopWl s (selectRecords df dateObj) startRow).2 : Int) - 1 = _
    rw [fillLoopWl_snd]; push_cast; ring
  · show ((fillLoopWl s (selectRecords df dateObj) startRow).2 : Int) - 1 = _
    rw [fillLoopWl_snd, h0]; push_cast; ring
  · show ((fillLoopAuto _ (selectRecordsAuto true df dateObj) startRow).2 : Int) - 1 = _
    rw [fillLoopAuto_snd]; push_cast; ring
  · show ((fillLoopAuto _ (selectRecordsAuto true df dateObj) startRow).2 : Int) - 1 = _
    rw [fillLoopAuto_snd, h0]; push_cast; ring

/-- A sample record used by the concrete witnesses below. -/
def sampleRec : Rec :=
  { number := .num 1, description := .str ("task"), hr := .num 2,
    minField := .num 30, complete := .str ("Yes"), followUp := .str (""),
    comments := .str (""), date := some ("01-02-2024") }

/-- A minimal template-like sheet used by the concrete witnesses below. -/
def sampleSheet : Sheet :=
  { cells := fun _ => none, fonts := fun _ => FontV.template 0,
    hasStyle := fun _ => true, mergedRanges := [], mergedCells := [],
    maxRow := 7, maxCol := 7, freezePanes := none }

/-- Witness for C1 at a concrete one-record frame and at an empty frame. -/
theorem C1_populator_last_row_witness :
    (fill_daily_sheet_wl sampleSheet ("01-02-2024") ⟨true, [sampleRec]⟩ 7).2 =
        (7 : Int) + 1 - 1 ∧
    (fill_daily_sheet_wl sampleSheet ("01-03-2024") ⟨true, [sampleRec]⟩ 7).2 =
        (7 : Int) - 1 ∧
    (fill_daily_sheet_auto sampleSheet ("01-02-2024") ⟨true, [sampleRec]⟩ true 7
        none ("01-02-2024")).2 = (7 : Int) + 1 - 1 := by
  refine ⟨?_, ?_, ?_⟩
  · have h := (C1_populator_last_row sampleSheet sampleSheet ("01-02-2024")
      ("01-02-2024") ⟨true, [sampleRec]⟩ none 7).1 (by decide)
    simpa using h
  · have h := (C1_populator_last_row sampleSheet sampleSheet ("01-03-2024")
      ("01-03-2024") ⟨true, [sampleRec]⟩ none 7).2.1 (by decide)
    simpa using h
  · have h := (C1_populator_last_row sampleSheet sampleSheet ("01-02-2024")
      ("01-02-2024") ⟨true, [sampleRec]⟩ none 7).2.2.1 (by decide)
    simpa using h

theorem summaryRowsLoop_names (items : List (String × Int × Int)) (k : Nat) :
    (summaryRowsLoop items k).map SummaryRow.name =
      (items.filter (fun p => !decide (p.2.2 < p.2.1))).map Prod.fst := by
  induction items generalizing k with
  | nil => rfl
  | cons p rest ih =>
    rcases p with ⟨name, sr, lr⟩
    rw [summaryRowsLoop]
    by_cases hd : lr < sr
    · rw [if_pos hd, ih, List.filter_cons]
      simp [hd]
    · rw [if_neg hd, List.map_cons, ih, List.filter_cons]
      simp [hd]

theorem summaryRowsLoop_rowIdxs (items : List (String × Int × Int)) (k : Nat) :
    (summaryRowsLoop items k).map SummaryRow.rowIdx =
      List.range' k (summaryRowsLoop items k).length := by
  induction items generalizing k with
  | nil => rfl
  | cons p rest ih =>
    rcases p with ⟨name, sr, lr⟩
    rw [summaryRowsLoop]
    by_cases hd : lr < sr
    · rw [if_pos hd]; exact ih k
    · rw [if_neg hd]
      simp only [List.map_cons, List.length_cons, List.range'_succ]
      rw [ih (k + 1)]

/-- C2: after rebuilding the Total sheet summary, there is exactly one emitted
row per daily sheet with a non-degenerate range (lastRow ≥ firstRow), the rows
are consecutive from row 4, they are ordered by lexicographic sheet name, and
degenerate sheets contribute no row. -/
theorem C2_total_summary_rows (info : List (String × Int × Int))
    (h : (info.map Prod.fst).Nodup) :
    (summaryRows info).map SummaryRow.name =
      ((sortDailyInfo info).filter (fun p => !decide (p.2.2 < p.2.1))).map Prod.fst ∧
    (summaryRows info).map SummaryRow.rowIdx =
      List.range' 4 (summaryRows info).length ∧
    List.Pairwise (fun a b => a ≤ b) ((summaryRows info).map SummaryRow.name) ∧
    ((summaryRows info).map SummaryRow.name).Nodup := by
  have hnames := summaryRowsLoop_names (sortDailyInfo info) 4
  have hsub : List.Sublist
      (((sortDailyInfo info).filter (fun p => !decide (p.2.2 < p.2.1))).map Prod.fst)
      ((sortDailyInfo info).map Prod.fst) :=
    (List.filter_sublist _).map Prod.fst
  refine ⟨hnames, summaryRowsLoop_rowIdxs (sortDailyInfo info) 4, ?_, ?_⟩
  · have hs : List.Sorted infoKeyLE (sortDailyInfo info) :=
      List.sorted_insertionSort infoKeyLE info
    have hp : List.Pairwise (fun a b : String => a ≤ b)
        ((sortDailyInfo info).map Prod.fst) := List.Pairwise.map _ (fun _ _ hab => hab) hs
    rw [summaryRows, hnames]
    exact hp.sublist hsub
  · have hperm : List.Perm ((sortDailyInfo info).map Prod.fst) (info.map Prod.fst) :=
      (List.perm_insertionSort infoKeyLE info).map Prod.fst
    have hnd : ((sortDailyInfo info).map Prod.fst).Nodup := hperm.nodup_iff.mpr h
    rw [summaryRows, hnames]
    exact hnd.sublist hsub

/-- Witness for C2 at a concrete two-sheet mapping with one degenerate range. -/
theorem C2_total_summary_rows_witness :
    (["01-02-2024"] : List String).Nodup ∧
    (summaryRows [("01-02-2024", 7, 9)]).map SummaryRow.name = ["01-02-2024"] := by
  constructor
  · decide
  · have h := (C2_total_summary_rows [("01-02-2024", 7, 9)] (by decide)).1
    simpa [sortDailyInfo, List.insertionSort] using h

theorem resolveTarget_nomerge {s : Sheet} (h : s.mergedCells = []) (a : Addr) :
    resolveTarget s a = some a := by
  unfold resolveTarget isMergedCell
  rw [h]
  rfl

theorem safe_set_cell_cells_nomerge {s : Sheet} (h : s.mergedCells = [])
    (a : Addr) (v : Option CellVal) (b : Addr) :
    (safe_set_cell s a v).cells b = if b = a then v else s.cells b := by
  rw [safe_set_cell_cells, resolveTarget_nomerge h]
  by_cases hb : b = a
  · subst hb; simp
  · rw [if_neg hb, if_neg (fun hc => hb (Option.some_injective _ hc).symm)]

theorem totalLoop_mergedCells (items : List (String × Int × Int)) (ts : Sheet)
    (rate : Rat) (k : Nat) :
    (totalLoop ts items rate k).mergedCells = ts.mergedCells := by
  induction items generalizing ts k with
  | nil => rfl
  | cons p rest ih =>
    rcases p with ⟨name, sr, lr⟩
    rw [totalLoop]
    by_cases hd : lr < sr
    · rw [if_pos hd]; exact ih ts k
    · rw [if_neg hd]
      rw [ih]
      simp only [safe_set_cell_mergedCells]

theorem totalLoop_frame (items : List (String × Int × Int)) (ts : Sheet)
    (rate : Rat) (k : Nat) (a : Addr) (ha : a.1 < k) (h : ts.mergedCells = []) :
    (totalLoop ts items rate k).cells a = ts.cells a := by
  induction items generalizing ts k with
  | nil => rfl
  | cons p rest ih =>
    rcases p with ⟨name, sr, lr⟩
    rw [totalLoop]
    by_cases hd : lr < sr
    · rw [if_pos hd]; exact ih ts k ha h
    · rw [if_neg hd]
      have h1 : ∀ v, (safe_set_cell ts (k, 2) v).mergedCells = [] := by
        intro v; rw [safe_set_cell_mergedCells]; exact h
      have hne : ∀ c : Nat, a ≠ (k, c) := by
        rintro c rfl; exact Nat.lt_irrefl _ ha
      rw [ih _ _ (Nat.lt_succ_of_lt ha)
        (by simp only [safe_set_cell_mergedCells]; exact h)]
      rw [safe_set_cell_cells_nomerge (by simp only [safe_set_cell_mergedCells]; exact h),
        if_neg (hne 5),
        safe_set_cell_cells_nomerge (by simp only [safe_set_cell_mergedCells]; exact h),
        if_neg (hne 4),
        safe_set_cell_cells_nomerge (by simp only [safe_set_cell_mergedCells]; exact h),
        if_neg (hne 3),
        safe_set_cell_cells_nomerge h, if_neg (hne 2)]

theorem totalLoop_row_cells (items : List (String × Int × Int)) (ts : Sheet)
    (rate : Rat) (k : Nat) (r : SummaryRow) (h : ts.mergedCells = [])
    (hr : r ∈ summaryRowsLoop items k) :
    (totalLoop ts items rate k).cells (r.rowIdx, 2) = some (.str r.name) ∧
    (totalLoop ts items rate k).cells (r.rowIdx, 3) =
      some (.str (hour_formula r.name r.firstRow r.lastRow)) ∧
    (totalLoop ts items rate k).cells (r.rowIdx, 4) = some (.num rate) ∧
    (totalLoop ts items rate k).cells (r.rowIdx, 5) =
      some (.str (cost_formula r.rowIdx)) := by
  induction items generalizing ts k with
  | nil => cases hr
  | cons p rest ih =>
    rcases p with ⟨name, sr, lr⟩
    rw [totalLoop]
    rw [summaryRowsLoop] at hr
    by_cases hd : lr < sr
    · rw [if_pos hd]
      rw [if_pos hd] at hr
      exact ih ts k h hr
    · rw [if_neg hd]
      rw [if_neg hd] at hr
      have hm1 : ∀ t : Sheet, t.mergedCells = [] →
          ∀ a v, (safe_set_cell t a v).mergedCells = [] := by
        intro t ht a v; rw [safe_set_cell_mergedCells]; exact ht
      rcases List.mem_cons.mp hr with hhead | htail
      · subst hhead
        have hm2 := hm1 _ h (k, 2) (some (.str name))
        have hm3 := hm1 _ hm2 (k, 3) (some (.str (hour_formula name sr lr)))
        have hm4 := hm1 _ hm3 (k, 4) (some (.num rate))
        have hm5 := hm1 _ hm4 (k, 5) (some (.str (cost_formula k)))
        refine ⟨?_, ?_, ?_, ?_⟩ <;>
        · rw [totalLoop_frame _ _ _ _ _ (Nat.lt_succ_self k) hm5]
          rw [safe_set_cell_cells_nomerge hm4, safe_set_cell_cells_nomerge hm3,
            safe_set_cell_cells_nomerge hm2, safe_set_cell_cells_nomerge h]
          simp
      · exact ih _ (k + 1)
          (hm1 _ (hm1 _ (hm1 _ (hm1 _ h _ _) _ _) _ _) _ _) htail

/-- C3: every summary row the Aggregator emits for a sheet with range
(firstRow, lastRow) carries in column B the sheet name, in column C the
formula summing hours plus minutes over sixty across that range, in column D
the rate, and in column E the product formula for its own row. -/
theorem C3_summary_row_contents (ts : Sheet) (info : List (String × Int × Int))
    (rate : Rat) (r : SummaryRow) (h : ts.mergedCells = [])
    (hr : r ∈ summaryRows info) :
    (update_total_sheet ts info rate).cells (r.rowIdx, 2) = some (.str r.name) ∧
    (update_total_sheet ts info rate).cells (r.rowIdx, 3) = some (.str
      ("=SUM(\x27" ++ r.name ++ "\x27!C" ++ toString r.firstRow ++ ":C" ++
        toString r.lastRow ++ ") + (SUM(\x27" ++ r.name ++ "\x27!D" ++
        toString r.firstRow ++ ":D" ++ toString r.lastRow ++ ")/60)")) ∧
    (update_total_sheet ts info rate).cells (r.rowIdx, 4) = some (.num rate) ∧
    (update_total_sheet ts info rate).cells (r.rowIdx, 5) = some (.str
      ("=C" ++ toString r.rowIdx ++ "*D" ++ toString r.rowIdx)) := by
  have hcl : ((rowColAddrs 4 ts.maxRow ts.maxCol).foldl
      (fun t a => setCellValue t a none) ts).mergedCells = [] := by
    rw [foldl_setCellValue_none_mergedCells]; exact h
  have hmain := totalLoop_row_cells (sortDailyInfo info) _ rate 4 r hcl hr
  unfold update_total_sheet
  refine ⟨hmain.1, ?_, hmain.2.2.1, ?_⟩
  · simpa [hour_formula] using hmain.2.1
  · simpa [cost_formula] using hmain.2.2.2

/-- Witness for C3: the single emitted row of a concrete one-sheet mapping. -/
theorem C3_summary_row_contents_witness :
    (update_total_sheet newWorksheet [("01-02-2024", 7, 9)] 25).cells (4, 2) =
      some (.str ("01-02-2024")) ∧
    (update_total_sheet newWorksheet [("01-02-2024", 7, 9)] 25).cells (4, 3) =
      some (.str ("=SUM(\x2701-02-2024\x27!C7:C9) + (SUM(\x2701-02-2024\x27!D7:D9)/60)")) ∧
    (update_total_sheet newWorksheet [("01-02-2024", 7, 9)] 25).cells (4, 4) =
      some (.num 25) ∧
    (update_total_sheet newWorksheet [("01-02-2024", 7, 9)] 25).cells (4, 5) =
      some (.str ("=C4*D4")) := by
  have h := C3_summary_row_contents newWorksheet [("01-02-2024", 7, 9)] 25
    ⟨4, "01-02-2024", 7, 9⟩ rfl (by decide)
  simpa using h

theorem isMergedCell_iff_mem {s : Sheet} {a : Addr} :
    isMergedCell s a = true ↔ a ∈ s.mergedCells := by
  unfold isMergedCell
  exact List.elem_iff

/-- C6: on a sheet whose MergedCell addresses all lie inside some recorded
merged region (and are non-anchor members of every region containing them,
as openpyxl guarantees), `safe_set_cell` writes the value to exactly one
cell: the anchor of the region containing a merged address, leaving the
addressed cell untouched, or the addressed cell itself otherwise; every other
cell of the sheet is unchanged. -/
theorem C6_safe_set_cell_contract (s : Sheet) (a : Addr) (value : CellVal)
    (h1 : ∀ b ∈ s.mergedCells, ∃ r ∈ s.mergedRanges, r.containsB b = true)
    (h2 : ∀ b ∈ s.mergedCells, ∀ r ∈ s.mergedRanges, r.containsB b = true →
      r.anchor ≠ b) :
    ∃ t : Addr, resolveTarget s a = some t ∧
      (safe_set_cell s a (some value)).cells t = some value ∧
      (∀ b : Addr, b ≠ t → (safe_set_cell s a (some value)).cells b = s.cells b) ∧
      (isMergedCell s a = true →
        (∃ r ∈ s.mergedRanges, r.containsB a = true ∧ t = r.anchor) ∧ t ≠ a ∧
        (safe_set_cell s a (some value)).cells a = s.cells a) ∧
      (isMergedCell s a = false → t = a) := by
  by_cases hm : isMergedCell s a
  · have ha : a ∈ s.mergedCells := isMergedCell_iff_mem.mp hm
    obtain ⟨r0, hr0, hc0⟩ := h1 a ha
    have hfind : ∃ r, findMergedRange s.mergedRanges a = some r := by
      have : (findMergedRange s.mergedRanges a).isSome := by
        unfold findMergedRange
        rw [List.find?_isSome]
        exact ⟨r0, hr0, hc0⟩
      exact Option.isSome_iff_exists.mp this
    obtain ⟨r, hr⟩ := hfind
    have hr' : s.mergedRanges.find? (fun q => q.containsB a) = some r := hr
    have hrmem : r ∈ s.mergedRanges := List.mem_of_find?_eq_some hr'
    have hrcont : r.containsB a = true := by
      have hp := List.find?_some hr'
      simpa using hp
    have hanchor : r.anchor ≠ a := h2 a ha r hrmem hrcont
    have htgt : resolveTarget s a = some r.anchor := by
      unfold resolveTarget
      rw [if_pos hm, hr]
      rfl
    refine ⟨r.anchor, htgt, ?_, ?_, ?_, ?_⟩
    · rw [safe_set_cell_cells, htgt, if_pos rfl]
    · intro b hb
      rw [safe_set_cell_cells, htgt,
        if_neg (fun hc => hb (Option.some_injective _ hc).symm)]
    · intro _
      refine ⟨⟨r, hrmem, hrcont, rfl⟩, hanchor, ?_⟩
      rw [safe_set_cell_cells, htgt,
        if_neg (fun hc => hanchor (Option.some_injective _ hc))]
    · intro hfalse
      rw [hm] at hfalse
      cases hfalse
  · have hm0 : isMergedCell s a = false := by
      cases h : isMergedCell s a
      · rfl
      · exact absurd h hm
    have htgt : resolveTarget s a = some a := by
      unfold resolveTarget
      rw [if_neg hm]
    refine ⟨a, htgt, ?_, ?_, ?_, fun _ => rfl⟩
    · rw [safe_set_cell_cells, htgt, if_pos rfl]
    · intro b hb
      rw [safe_set_cell_cells, htgt,
        if_neg (fun hc => hb (Option.some_injective _ hc).symm)]
    · intro htrue
      rw [hm0] at htrue
      cases htrue

/-- A sheet as the workbook loader materialises it: one merged region B7:C7
recorded, with the non-anchor member C7 present as a MergedCell object.  Used
to exercise safe_set_cell redirection; direct-write artifacts use its clone,
which carries the range but no MergedCell object. -/
def mergedSheet : Sheet :=
  { cells := fun _ => none, fonts := fun _ => FontV.template 0,
    hasStyle := fun _ => true, mergedRanges := [⟨7, 2, 7, 3⟩],
    mergedCells := [(7, 3)], maxRow := 7, maxCol := 7, freezePanes := none }

/-- Witness for C6: writing to the merged non-anchor cell C7 of `mergedSheet`
lands on the anchor B7 and leaves C7 alone. -/
theorem C6_safe_set_cell_contract_witness :
    (safe_set_cell mergedSheet (7, 3) (some (.str ("v")))).cells (7, 2) =
      some (.str ("v")) ∧
    (safe_set_cell mergedSheet (7, 3) (some (.str ("v")))).cells (7, 3) = none := by
  obtain ⟨t, htgt, hwrite, hframe, hmerged, -⟩ :=
    C6_safe_set_cell_contract mergedSheet (7, 3) (.str ("v"))
      (by decide) (by decide)
  have ht : t = (7, 2) := by
    have : resolveTarget mergedSheet (7, 3) = some (7, 2) := by decide
    rw [this] at htgt
    exact (Option.some_injective _ htgt.symm)
  obtain ⟨-, -, huntouched⟩ := hmerged (by decide)
  subst ht
  exact ⟨hwrite, huntouched⟩

theorem setFont_cells (s : Sheet) (a : Addr) (f : FontV) :
    (setFont s a f).cells = s.cells := rfl

theorem setFont_fonts (s : Sheet) (a : Addr) (f : FontV) (b : Addr) :
    (setFont s a f).fonts b = if b = a then f else s.fonts b := rfl

theorem setFont_hasStyle (s : Sheet) (a : Addr) (f : FontV) (b : Addr) :
    (setFont s a f).hasStyle b = if b = a then true else s.hasStyle b := rfl

theorem copy_cell_style_cells (s : Sheet) (src dst : Addr) :
    (copy_cell_style s src dst).cells = s.cells := by
  unfold copy_cell_style
  split_ifs <;> rfl

theorem copy_cell_style_fonts_other (s : Sheet) (src dst b : Addr) (hb : b ≠ dst) :
    (copy_cell_style s src dst).fonts b = s.fonts b := by
  unfold copy_cell_style
  split_ifs
  · rw [setFont_fonts, if_neg hb]
  · rfl

theorem copy_cell_style_hasStyle_other (s : Sheet) (src dst b : Addr) (hb : b ≠ dst) :
    (copy_cell_style s src dst).hasStyle b = s.hasStyle b := by
  unfold copy_cell_style
  split_ifs
  · rw [setFont_hasStyle, if_neg hb]
  · rfl

theorem copy_cell_style_fonts_self (s : Sheet) (src dst : Addr) :
    (copy_cell_style s src dst).fonts dst =
      if s.hasStyle src then s.fonts src else s.fonts dst := by
  unfold copy_cell_style
  split_ifs
  · rw [setFont_fonts, if_pos rfl]
  · rfl

theorem wlFontOverride_cells (s : Sheet) (a : Addr) (v : CellVal) :
    (wlFontOverride s a v).cells = s.cells := by
  unfold wlFontOverride
  cases v with
  | str val => dsimp only; split_ifs <;> rfl
  | num q => rfl

theorem wlFontOverride_fonts_self (s : Sheet) (a : Addr) (v : CellVal) :
    (wlFontOverride s a v).fonts a = completeFontWl (s.fonts a) v := by
  unfold wlFontOverride completeFontWl
  cases v with
  | str val => dsimp only; split_ifs <;> simp [setFont_fonts]
  | num q => rfl

theorem wlFontOverride_fonts_other (s : Sheet) (a : Addr) (v : CellVal) (b : Addr)
    (hb : b ≠ a) : (wlFontOverride s a v).fonts b = s.fonts b := by
  unfold wlFontOverride
  cases v with
  | str val => dsimp only; split_ifs <;> simp [setFont_fonts, hb]
  | num q => rfl

theorem wlFontOverride_hasStyle_other (s : Sheet) (a : Addr) (v : CellVal) (b : Addr)
    (hb : b ≠ a) : (wlFontOverride s a v).hasStyle b = s.hasStyle b := by
  unfold wlFontOverride
  cases v with
  | str val => dsimp only; split_ifs <;> simp [setFont_hasStyle, hb]
  | num q => rfl

theorem autoFontOverride_cells (s : Sheet) (a : Addr) (v : CellVal) :
    (autoFontOverride s a v).cells = s.cells := by
  unfold autoFontOverride
  cases v with
  | str val => dsimp only; split_ifs <;> rfl
  | num q => rfl

theorem autoFontOverride_fonts_self (s : Sheet) (a : Addr) (v : CellVal) :
    (autoFontOverride s a v).fonts a = completeFontAuto (s.fonts a) v := by
  unfold autoFontOverride completeFontAuto
  cases v with
  | str val => dsimp only; split_ifs <;> simp [setFont_fonts]
  | num q => rfl

theorem autoFontOverride_fonts_other (s : Sheet) (a : Addr) (v : CellVal) (b : Addr)
    (hb : b ≠ a) : (autoFontOverride s a v).fonts b = s.fonts b := by
  unfold autoFontOverride
  cases v with
  | str val => dsimp only; split_ifs <;> simp [setFont_fonts, hb]
  | num q => rfl

theorem wlColStep_cells (s : Sheet) (row c : Nat) (rec : Rec) (b : Addr) :
    (wlColStep s row c rec).cells b =
      if b = (row, c) then some (rec.get c) else s.cells b := by
  unfold wlColStep
  dsimp only
  by_cases hc : c = 5
  · rw [if_pos hc, wlFontOverride_cells, copy_cell_style_cells, setCellValue_cells]
  · rw [if_neg hc, copy_cell_style_cells, setCellValue_cells]

theorem wlColStep_fonts_other (s : Sheet) (row c : Nat) (rec : Rec) (b : Addr)
    (hb : b ≠ (row, c)) : (wlColStep s row c rec).fonts b = s.fonts b := by
  unfold wlColStep
  dsimp only
  split_ifs with hc
  · rw [wlFontOverride_fonts_other _ _ _ _ hb, copy_cell_style_fonts_other _ _ _ _ hb,
      setCellValue_fonts]
  · rw [copy_cell_style_fonts_other _ _ _ _ hb, setCellValue_fonts]

theorem wlColStep_hasStyle_other (s : Sheet) (row c : Nat) (rec : Rec) (b : Addr)
    (hb : b ≠ (row, c)) : (wlColStep s row c rec).hasStyle b = s.hasStyle b := by
  unfold wlColStep
  dsimp only
  split_ifs with hc
  · rw [wlFontOverride_hasStyle_other _ _ _ _ hb, copy_cell_style_hasStyle_other _ _ _ _ hb,
      setCellValue_hasStyle]
  · rw [copy_cell_style_hasStyle_other _ _ _ _ hb, setCellValue_hasStyle]

theorem wlColStep_fonts_complete (s : Sheet) (row : Nat) (rec : Rec) :
    (wlColStep s row 5 rec).fonts (row, 5) =
      completeFontWl
        (if s.hasStyle (TEMPLATE_STYLE_ROW, 5) = true
          then s.fonts (TEMPLATE_STYLE_ROW, 5) else s.fonts (row, 5))
        rec.complete := by
  unfold wlColStep
  dsimp only
  rw [if_pos rfl, wlFontOverride_fonts_self, copy_cell_style_fonts_self,
    setCellValue_hasStyle, setCellValue_fonts]
  rfl

/-- Unrolling of the seven-column loop of the work_log record writer. -/
theorem writeRecWl_eq (s : Sheet) (row : Nat) (rec : Rec) :
    writeRecWl s row rec =
      wlColStep (wlColStep (wlColStep (wlColStep (wlColStep (wlColStep
        (wlColStep s row 1 rec) row 2 rec) row 3 rec) row 4 rec) row 5 rec)
        row 6 rec) row 7 rec := rfl

theorem writeRecWl_cells_own (s : Sheet) (row : Nat) (rec : Rec) (c : Nat)
    (h1 : 1 ≤ c) (h7 : c ≤ 7) :
    (writeRecWl s row rec).cells (row, c) = some (rec.get c) := by
  interval_cases c <;> simp [writeRecWl_eq, wlColStep_cells]

theorem writeRecWl_cells_other (s : Sheet) (row : Nat) (rec : Rec) (b : Addr)
    (hb : b.1 ≠ row) : (writeRecWl s row rec).cells b = s.cells b := by
  have h : ∀ c : Nat, b ≠ (row, c) := by
    rintro c rfl
    exact hb rfl
  simp [writeRecWl_eq, wlColStep_cells, h]

theorem writeRecWl_fonts_other (s : Sheet) (row : Nat) (rec : Rec) (b : Addr)
    (hb : b.1 ≠ row) : (writeRecWl s row rec).fonts b = s.fonts b := by
  have h : ∀ c : Nat, b ≠ (row, c) := by
    rintro c rfl
    exact hb rfl
  rw [writeRecWl_eq, wlColStep_fonts_other _ _ _ _ _ (h 7),
    wlColStep_fonts_other _ _ _ _ _ (h 6), wlColStep_fonts_other _ _ _ _ _ (h 5),
    wlColStep_fonts_other _ _ _ _ _ (h 4), wlColStep_fonts_other _ _ _ _ _ (h 3),
    wlColStep_fonts_other _ _ _ _ _ (h 2), wlColStep_fonts_other _ _ _ _ _ (h 1)]

theorem wlColStep_keep5 (s : Sheet) (row c : Nat) (rec : Rec) (hc : c ≠ 5) :
    (wlColStep s row c rec).hasStyle (TEMPLATE_STYLE_ROW, 5) =
        s.hasStyle (TEMPLATE_STYLE_ROW, 5) ∧
      (wlColStep s row c rec).fonts (TEMPLATE_STYLE_ROW, 5) =
        s.fonts (TEMPLATE_STYLE_ROW, 5) ∧
      (wlColStep s row c rec).fonts (row, 5) = s.fonts (row, 5) := by
  have h1 : (TEMPLATE_STYLE_ROW, 5) ≠ (row, c) := by
    intro he
    exact hc (congrArg Prod.snd he).symm
  have h2 : ((row, 5) : Addr) ≠ (row, c) := by
    intro he
    exact hc (congrArg Prod.snd he).symm
  exact ⟨wlColStep_hasStyle_other _ _ _ _ _ h1, wlColStep_fonts_other _ _ _ _ _ h1,
    wlColStep_fonts_other _ _ _ _ _ h2⟩

theorem writeRecWl_fonts_complete (s : Sheet) (row : Nat) (rec : Rec) :
    (writeRecWl s row rec).fonts (row, 5) =
      completeFontWl
        (if s.hasStyle (TEMPLATE_STYLE_ROW, 5) = true
          then s.fonts (TEMPLATE_STYLE_ROW, 5) else s.fonts (row, 5))
        rec.complete := by
  have h7 : ((row, 5) : Addr) ≠ (row, 7) := by simp
  have h6 : ((row, 5) : Addr) ≠ (row, 6) := by simp
  rw [writeRecWl_eq, wlColStep_fonts_other _ _ _ _ _ h7,
    wlColStep_fonts_other _ _ _ _ _ h6, wlColStep_fonts_complete,
    (wlColStep_keep5 _ _ 4 _ (by decide)).1, (wlColStep_keep5 _ _ 4 _ (by decide)).2.1,
    (wlColStep_keep5 _ _ 4 _ (by decide)).2.2,
    (wlColStep_keep5 _ _ 3 _ (by decide)).1, (wlColStep_keep5 _ _ 3 _ (by decide)).2.1,
    (wlColStep_keep5 _ _ 3 _ (by decide)).2.2,
    (wlColStep_keep5 _ _ 2 _ (by decide)).1, (wlColStep_keep5 _ _ 2 _ (by decide)).2.1,
    (wlColStep_keep5 _ _ 2 _ (by decide)).2.2,
    (wlColStep_keep5 _ _ 1 _ (by decide)).1, (wlColStep_keep5 _ _ 1 _ (by decide)).2.1,
    (wlColStep_keep5 _ _ 1 _ (by decide)).2.2]

theorem writeRecAuto_cells_own (s : Sheet) (row : Nat) (rec : Rec) (c : Nat)
    (h1 : 1 ≤ c) (h7 : c ≤ 7) :
    (writeRecAuto s row rec).cells (row, c) = some (rec.get c) := by
  unfold writeRecAuto
  dsimp only
  interval_cases c <;>
    simp [setCellValue_cells, autoFontOverride_cells, Rec.get]

theorem writeRecAuto_cells_other (s : Sheet) (row : Nat) (rec : Rec) (b : Addr)
    (hb : b.1 ≠ row) : (writeRecAuto s row rec).cells b = s.cells b := by
  have h : ∀ c : Nat, b ≠ (row, c) := by
    rintro c rfl
    exact hb rfl
  unfold writeRecAuto
  dsimp only
  simp [setCellValue_cells, autoFontOverride_cells, h]

theorem writeRecAuto_fonts_other (s : Sheet) (row : Nat) (rec : Rec) (b : Addr)
    (hb : b.1 ≠ row) : (writeRecAuto s row rec).fonts b = s.fonts b := by
  have h : b ≠ (row, 5) := by
    rintro rfl
    exact hb rfl
  unfold writeRecAuto
  dsimp only
  rw [setCellValue_fonts, setCellValue_fonts, autoFontOverride_fonts_other _ _ _ _ h,
    setCellValue_fonts, setCellValue_fonts, setCellValue_fonts, setCellValue_fonts,
    setCellValue_fonts]

theorem writeRecAuto_fonts_complete (s : Sheet) (row : Nat) (rec : Rec) :
    (writeRecAuto s row rec).fonts (row, 5) =
      completeFontAuto (s.fonts (row, 5)) rec.complete := by
  unfold writeRecAuto
  dsimp only
  rw [setCellValue_fonts, setCellValue_fonts, autoFontOverride_fonts_self,
    setCellValue_fonts, setCellValue_fonts, setCellValue_fonts, setCellValue_fonts,
    setCellValue_fonts]

theorem fillLoopWl_append (L1 L2 : List Rec) (s : Sheet) (cur : Nat) :
    fillLoopWl s (L1 ++ L2) cur =
      fillLoopWl (fillLoopWl s L1 cur).1 L2 (fillLoopWl s L1 cur).2 := by
  induction L1 generalizing s cur with
  | nil => rfl
  | cons r rest ih => rw [List.cons_append, fillLoopWl, ih]; rfl

theorem fillLoopAuto_append (L1 L2 : List Rec) (s : Sheet) (cur : Nat) :
    fillLoopAuto s (L1 ++ L2) cur =
      fillLoopAuto (fillLoopAuto s L1 cur).1 L2 (fillLoopAuto s L1 cur).2 := by
  induction L1 generalizing s cur with
  | nil => rfl
  | cons r rest ih => rw [List.cons_append, fillLoopAuto, ih]; rfl

theorem fillLoopWl_fonts_frame (recs : List Rec) (s : Sheet) (cur : Nat) (a : Addr)
    (ha : a.1 < cur) : (fillLoopWl s recs cur).1.fonts a = s.fonts a := by
  induction recs generalizing s cur with
  | nil => rfl
  | cons r rest ih =>
    rw [fillLoopWl, ih _ _ (Nat.lt_succ_of_lt ha),
      writeRecWl_fonts_other _ _ _ _ (Nat.ne_of_lt ha)]

theorem fillLoopAuto_fonts_frame (recs : List Rec) (s : Sheet) (cur : Nat) (a : Addr)
    (ha : a.1 < cur) : (fillLoopAuto s recs cur).1.fonts a = s.fonts a := by
  induction recs generalizing s cur with
  | nil => rfl
  | cons r rest ih =>
    rw [fillLoopAuto, ih _ _ (Nat.lt_succ_of_lt ha),
      writeRecAuto_fonts_other _ _ _ _ (Nat.ne_of_lt ha)]

theorem fillLoopAuto_fonts_frame_ge (recs : List Rec) (s : Sheet) (cur : Nat)
    (a : Addr) (ha : cur + recs.length ≤ a.1) :
    (fillLoopAuto s recs cur).1.fonts a = s.fonts a := by
  induction recs generalizing s cur with
  | nil => rfl
  | cons r rest ih =>
    rw [List.length_cons] at ha
    rw [fillLoopAuto, ih _ (cur + 1) (by omega),
      writeRecAuto_fonts_other _ _ _ _ (by omega)]

theorem fillLoopWl_fonts_at (recs : List Rec) (s : Sheet) (cur i : Nat)
    (h : i < recs.length) :
    (fillLoopWl s recs cur).1.fonts (cur + i, 5) =
      completeFontWl
        (if (fillLoopWl s (recs.take i) cur).1.hasStyle (TEMPLATE_STYLE_ROW, 5) = true
          then (fillLoopWl s (recs.take i) cur).1.fonts (TEMPLATE_STYLE_ROW, 5)
          else (fillLoopWl s (recs.take i) cur).1.fonts (cur + i, 5))
        recs[i].complete := by
  conv_lhs => rw [← List.take_append_drop i recs]
  rw [fillLoopWl_append]
  have hsnd : (fillLoopWl s (recs.take i) cur).2 = cur + i := by
    rw [fillLoopWl_snd, List.length_take]
    omega
  rw [hsnd, List.drop_eq_getElem_cons h, fillLoopWl,
    fillLoopWl_fonts_frame _ _ _ _ (by omega), writeRecWl_fonts_complete]

theorem fillLoopAuto_fonts_at (recs : List Rec) (s : Sheet) (cur i : Nat)
    (h : i < recs.length) :
    (fillLoopAuto s recs cur).1.fonts (cur + i, 5) =
      completeFontAuto (s.fonts (cur + i, 5)) recs[i].complete := by
  conv_lhs => rw [← List.take_append_drop i recs]
  rw [fillLoopAuto_append]
  have hsnd : (fillLoopAuto s (recs.take i) cur).2 = cur + i := by
    rw [fillLoopAuto_snd, List.length_take]
    omega
  rw [hsnd, List.drop_eq_getElem_cons h, fillLoopAuto,
    fillLoopAuto_fonts_frame _ _ _ _ (by omega), writeRecAuto_fonts_complete,
    fillLoopAuto_fonts_frame_ge _ _ _ _ (by rw [List.length_take]; omega)]

theorem headerFold_fonts (L : List String) (s : Sheet) (n : Nat) :
    ((L.foldl
      (fun (p : Sheet × Nat) h => (setCellValue p.1 (6, p.2) (some (.str h)), p.2 + 1))
      (s, n)).1).fonts = s.fonts := by
  induction L generalizing s n with
  | nil => rfl
  | cons a L ih =>
    rw [List.foldl_cons]
    rw [ih, setCellValue_fonts]

theorem writeHeaderRow_fonts (s : Sheet) : (writeHeaderRow s).fonts = s.fonts :=
  headerFold_fonts headerLabels s 1

theorem fill_daily_sheet_auto_fonts_at (sa : Sheet) (dateObj today : String)
    (df : DataFrame) (fallbackDate : Option String) (startRow i : Nat)
    (h : i < (selectRecordsAuto true df dateObj).length) :
    (fill_daily_sheet_auto sa dateObj df true startRow fallbackDate today).1.fonts
        (startRow + i, 5) =
      completeFontAuto (sa.fonts (startRow + i, 5))
        ((selectRecordsAuto true df dateObj)[i]).complete := by
  have hne : (selectRecordsAuto true df dateObj).isEmpty = false := by
    cases he : (selectRecordsAuto true df dateObj).isEmpty
    · rfl
    · rw [List.isEmpty_iff] at he
      rw [he] at h
      exact absurd h (by simp)
  unfold fill_daily_sheet_auto
  dsimp only
  simp only [hne, Bool.false_eq_true, if_false]
  rw [fillLoopAuto_fonts_at _ _ _ _ h, writeHeaderRow_fonts]
  rfl

/-- A record whose CompletionFlag is the whitespace-padded string " yes":
not "yes" in any casing, yet stripped and lower-cased it compares equal. -/
def recPadYes : Rec :=
  { number := .str (""), description := .str (""), hr := .str (""),
    minField := .str (""), complete := .str (" yes"), followUp := .str (""),
    comments := .str (""), date := none }

/-- C7 counterexample: work_log.fill_daily_sheet colours the Complete cell
green for the value " yes", although " yes" is not the string "yes" in any
casing (no casing change removes the space), so the claim that any other
value keeps the propagated default font fails on the work_log variant. -/
theorem C7_counterexample :
    pyLower (" yes") ≠ ("yes") ∧ pyLower (" yes") ≠ ("no") ∧
    sampleSheet.fonts (7, 5) = FontV.template 0 ∧
    (fill_daily_sheet_wl sampleSheet ("01-02-2024") ⟨false, [recPadYes]⟩ 7).1.fonts
      (7, 5) = greenFont ∧
    greenFont ≠ FontV.template 0 := by
  refine ⟨by decide, by decide, rfl, ?_, by decide⟩
  decide

/-- C7 amended: for every record written by either Populator the Complete
cell font is decided by the conditional override applied to the propagated
font — in automate_excel.py the comparison is on the exact lower-cased value,
while in work_log.py surrounding whitespace is stripped first (so padded
"yes"/"no" values are coloured as well); any other value keeps the propagated
font (the template style-row font current at write time for work_log, the
sheet font in place for automate_excel). -/
theorem C7_amended (s sa : Sheet) (dateObj today : String) (df : DataFrame)
    (fallbackDate : Option String) (startRow i : Nat)
    (hwl : i < (selectRecords df dateObj).length)
    (hau : i < (selectRecordsAuto true df dateObj).length) :
    ((fill_daily_sheet_wl s dateObj df startRow).1.fonts (startRow + i, 5) =
      completeFontWl
        (if (fillLoopWl s ((selectRecords df dateObj).take i) startRow).1.hasStyle
            (TEMPLATE_STYLE_ROW, 5) = true
          then (fillLoopWl s ((selectRecords df dateObj).take i) startRow).1.fonts
            (TEMPLATE_STYLE_ROW, 5)
          else (fillLoopWl s ((selectRecords df dateObj).take i) startRow).1.fonts
            (startRow + i, 5))
        ((selectRecords df dateObj)[i]).complete) ∧
    ((fill_daily_sheet_auto sa dateObj df true startRow fallbackDate today).1.fonts
        (startRow + i, 5) =
      completeFontAuto (sa.fonts (startRow + i, 5))
        ((selectRecordsAuto true df dateObj)[i]).complete) := by
  constructor
  · unfold fill_daily_sheet_wl
    dsimp only
    exact fillLoopWl_fonts_at _ _ _ _ hwl
  · exact fill_daily_sheet_auto_fonts_at sa dateObj today df fallbackDate startRow i hau

/-- Witness for C7 amended at a concrete record list. -/
theorem C7_amended_witness :
    (fill_daily_sheet_wl sampleSheet ("01-02-2024") ⟨false, [recPadYes]⟩ 7).1.fonts
        (7, 5) =
      completeFontWl
        (if (fillLoopWl sampleSheet ([] : List Rec) 7).1.hasStyle
            (TEMPLATE_STYLE_ROW, 5) = true
          then (fillLoopWl sampleSheet ([] : List Rec) 7).1.fonts (TEMPLATE_STYLE_ROW, 5)
          else (fillLoopWl sampleSheet ([] : List Rec) 7).1.fonts (7, 5))
        (CellVal.str (" yes")) ∧
    (fill_daily_sheet_auto sampleSheet ("01-02-2024") ⟨false, [recPadYes]⟩ true 7 none
        ("01-02-2024")).1.fonts (7, 5) =
      completeFontAuto (sampleSheet.fonts (7, 5)) (CellVal.str (" yes")) := by
  have h := C7_amended sampleSheet sampleSheet ("01-02-2024") ("01-02-2024")
    ⟨false, [recPadYes]⟩ none 7 0 (by decide) (by decide)
  simpa using h

/-- C10 counterexample: on the value " yes" the two Populators decide
different fonts — work_log strips whitespace and colours green, automate_excel
compares the raw string and keeps the current font. -/
theorem C10_counterexample :
    completeFontWl (FontV.template 0) (.str (" yes")) = greenFont ∧
    completeFontAuto (FontV.template 0) (.str (" yes")) = FontV.template 0 ∧
    greenFont ≠ FontV.template 0 := by
  decide

/-- C10 amended: the two conditional font decisions agree on every non-string
value and on every string without leading or trailing whitespace; they differ
exactly on padded strings whose stripped lower-casing is "yes" or "no". -/
theorem C10_amended (cur : FontV) (v : CellVal)
    (h : ∀ str : String, v = .str str → pyStrip str = str) :
    completeFontWl cur v = completeFontAuto cur v := by
  cases v with
  | str val =>
    unfold completeFontWl completeFontAuto
    dsimp only
    rw [h val rfl]
  | num q => rfl

/-- Witness for C10 amended at the unpadded value "Yes". -/
theorem C10_amended_witness :
    completeFontWl (FontV.template 0) (.str ("Yes")) =
      completeFontAuto (FontV.template 0) (.str ("Yes")) :=
  C10_amended (FontV.template 0) (.str ("Yes"))
    (fun str hs => by cases hs; decide)

/-- A template-like sheet with a merged region A6:A7 crossing the row-7 wipe
boundary: the anchor A6 holds a label in the preserved header block.  As on
every sheet the program wipes, the artifacts below operate on
`cloneSheet boundarySheet`, the state `wb.copy_worksheet` actually hands to
clear_sheet_data: the range is copied, no MergedCell object is. -/
def boundarySheet : Sheet :=
  { cells := fun a => if a = ((6, 1) : Addr) then some (.str ("DATE")) else none,
    fonts := fun _ => FontV.template 0, hasStyle := fun _ => true,
    mergedRanges := [⟨6, 1, 7, 1⟩], mergedCells := [(7, 1)],
    maxRow := 7, maxCol := 1, freezePanes := none }

theorem MRange.containsB_iff {r : MRange} {a : Addr} :
    r.containsB a = true ↔
      r.minRow ≤ a.1 ∧ a.1 ≤ r.maxRow ∧ r.minCol ≤ a.2 ∧ a.2 ≤ r.maxCol := by
  unfold MRange.containsB
  simp [and_assoc]

theorem resolveTarget_of_not_mem {s : Sheet} {a : Addr} (ha : a ∉ s.mergedCells) :
    resolveTarget s a = some a := by
  unfold resolveTarget
  rw [if_neg (fun h => ha (isMergedCell_iff_mem.mp h))]

theorem safe_set_cell_hasStyle (s : Sheet) (a : Addr) (v : Option CellVal) :
    (safe_set_cell s a v).hasStyle = s.hasStyle := by
  unfold safe_set_cell
  by_cases hm : isMergedCell s a
  · simp only [hm, if_true]
    cases hf : findMergedRange s.mergedRanges a <;> simp [setCellValue_hasStyle]
  · simp [hm, setCellValue_hasStyle]

theorem foldl_setCellValue_none_hasStyle (L : List Addr) (s : Sheet) :
    (L.foldl (fun t b => setCellValue t b none) s).hasStyle = s.hasStyle := by
  induction L generalizing s with
  | nil => rfl
  | cons b L ih => rw [List.foldl_cons, ih, setCellValue_hasStyle]

theorem foldl_setCellValue_none_mergedRanges (L : List Addr) (s : Sheet) :
    (L.foldl (fun t b => setCellValue t b none) s).mergedRanges =
      s.mergedRanges := by
  induction L generalizing s with
  | nil => rfl
  | cons b L ih => rw [List.foldl_cons, ih, setCellValue_mergedRanges]

theorem foldl_safe_set_cell_none_hasStyle (L : List Addr) (s : Sheet) :
    (L.foldl (fun t b => safe_set_cell t b none) s).hasStyle = s.hasStyle := by
  induction L generalizing s with
  | nil => rfl
  | cons b L ih => rw [List.foldl_cons, ih, safe_set_cell_hasStyle]

theorem foldl_safe_set_cell_none_mergedRanges (L : List Addr) (s : Sheet) :
    (L.foldl (fun t b => safe_set_cell t b none) s).mergedRanges =
      s.mergedRanges := by
  induction L generalizing s with
  | nil => rfl
  | cons b L ih => rw [List.foldl_cons, ih, safe_set_cell_mergedRanges]

/-- C5 counterexample: the Populator and the wipe run on cloned sheets, which
carry the merged ranges of the template but no materialised MergedCell objects, so
their writes are plain-cell writes.  The Populator stores the Hr value at the
non-anchor member C7 of the clone of `mergedSheet` itself (the anchor B7
receives the Description value, not a redirected Hr), and the work_log wipe
clears the member A7 of the clone of `boundarySheet` in place while the
anchor A6 keeps its label instead of receiving the cleared value — the writes
are not redirected to the anchor. -/
theorem C5_counterexample :
    (cloneSheet mergedSheet).mergedRanges = [⟨7, 2, 7, 3⟩] ∧
    MRange.containsB ⟨7, 2, 7, 3⟩ (7, 3) = true ∧
    MRange.anchor ⟨7, 2, 7, 3⟩ ≠ ((7, 3) : Addr) ∧
    (fill_daily_sheet_auto (cloneSheet mergedSheet) ("01-02-2024")
      ⟨false, [sampleRec]⟩ true 7 none ("01-02-2024")).1.cells (7, 3) =
        some (.num 2) ∧
    (fill_daily_sheet_auto (cloneSheet mergedSheet) ("01-02-2024")
      ⟨false, [sampleRec]⟩ true 7 none ("01-02-2024")).1.cells (7, 2) =
        some (.str ("task")) ∧
    (clear_sheet_data_wl (cloneSheet boundarySheet) 7).cells (7, 1) = none ∧
    (clear_sheet_data_wl (cloneSheet boundarySheet) 7).cells (6, 1) =
      some (.str ("DATE")) := by
  decide

/-- C5 amended: `safe_set_cell` on a materialised MergedCell (as on sheets
loaded from the template file) redirects the value to the anchor of the
containing region and leaves the addressed cell untouched; but the wipe of
the Cloner and the data-row writes of the Populators run on cloned sheets:
these carry
merged ranges only — there every write lands directly on the addressed cell,
even one that is a non-anchor member of a recorded merged region, and the
anchor is never written in its place. -/
theorem C5_amended (s s0 s1 : Sheet) (a b : Addr) (v : Option CellVal)
    (row c : Nat) (rec : Rec) (r : MRange)
    (hm : isMergedCell s a = true)
    (hf : findMergedRange s.mergedRanges a = some r)
    (hb : b ∈ rowColAddrs 7 (cloneSheet s1).maxRow (cloneSheet s1).maxCol)
    (hc1 : 1 ≤ c) (hc7 : c ≤ 7) :
    (safe_set_cell s a v).cells r.anchor = v ∧
    (r.anchor ≠ a → (safe_set_cell s a v).cells a = s.cells a) ∧
    (writeRecAuto (cloneSheet s0) row rec).cells (row, c) = some (rec.get c) ∧
    (writeRecWl (cloneSheet s0) row rec).cells (row, c) = some (rec.get c) ∧
    (clear_sheet_data_auto (cloneSheet s1) 7).cells b = none ∧
    (clear_sheet_data_wl (cloneSheet s1) 7).cells b = none := by
  have htgt : resolveTarget s a = some r.anchor := by
    unfold resolveTarget
    rw [if_pos hm, hf]
    rfl
  refine ⟨?_, ?_, writeRecAuto_cells_own _ row rec c hc1 hc7,
    writeRecWl_cells_own _ row rec c hc1 hc7, ?_, ?_⟩
  · rw [safe_set_cell_cells, htgt, if_pos rfl]
  · intro hna
    rw [safe_set_cell_cells, htgt, if_neg (fun hc => hna (Option.some_injective _ hc))]
  · unfold clear_sheet_data_auto
    rw [foldl_setCellValue_none_cells, if_pos hb]
  · unfold clear_sheet_data_wl
    rw [foldl_safe_set_cell_none_cells,
      if_pos ⟨b, hb, resolveTarget_nomerge rfl b⟩]

/-- Witness for C5 amended: a safe_set_cell redirect on the loaded
`mergedSheet`, and direct populator and wipe writes on cloned sheets. -/
theorem C5_amended_witness :
    (safe_set_cell mergedSheet (7, 3) (some (.str ("v")))).cells (7, 2) =
      some (.str ("v")) ∧
    (safe_set_cell mergedSheet (7, 3) (some (.str ("v")))).cells (7, 3) = none ∧
    (writeRecAuto (cloneSheet mergedSheet) 7 sampleRec).cells (7, 3) =
      some (.num 2) ∧
    (writeRecWl (cloneSheet mergedSheet) 7 sampleRec).cells (7, 3) =
      some (.num 2) ∧
    (clear_sheet_data_auto (cloneSheet boundarySheet) 7).cells (7, 1) = none ∧
    (clear_sheet_data_wl (cloneSheet boundarySheet) 7).cells (7, 1) = none := by
  have h := C5_amended mergedSheet mergedSheet boundarySheet (7, 3) (7, 1)
    (some (.str ("v"))) 7 3 sampleRec ⟨7, 2, 7, 3⟩ (by decide) (by decide)
    (by decide) (by decide) (by decide)
  obtain ⟨h1, h2, h3, h4, h5, h6⟩ := h
  exact ⟨h1, by rw [h2 (by decide)]; decide, h3, h4, h5, h6⟩

/-- C8: the wipe of the Cloner runs on sheets produced by `wb.copy_worksheet`,
which carry the merged ranges of the template but no materialised MergedCell
objects, so in both variants every swept write lands in place: all cells from
row 7 down become empty (the sheet holds values only inside its used range)
and rows 1-6 keep their values, while fonts, style flags and merged regions
are untouched everywhere. -/
theorem C8_cloned_wipe (s0 : Sheet) (a : Addr)
    (hW : ∀ b : Addr, (cloneSheet s0).cells b ≠ none →
      b.1 ≤ (cloneSheet s0).maxRow ∧ 1 ≤ b.2 ∧ b.2 ≤ (cloneSheet s0).maxCol) :
    (7 ≤ a.1 → (clear_sheet_data_auto (cloneSheet s0) 7).cells a = none) ∧
    (7 ≤ a.1 → (clear_sheet_data_wl (cloneSheet s0) 7).cells a = none) ∧
    (a.1 ≤ 6 → (clear_sheet_data_auto (cloneSheet s0) 7).cells a =
      (cloneSheet s0).cells a) ∧
    (a.1 ≤ 6 → (clear_sheet_data_wl (cloneSheet s0) 7).cells a =
      (cloneSheet s0).cells a) ∧
    (clear_sheet_data_auto (cloneSheet s0) 7).fonts a = (cloneSheet s0).fonts a ∧
    (clear_sheet_data_wl (cloneSheet s0) 7).fonts a = (cloneSheet s0).fonts a ∧
    (clear_sheet_data_auto (cloneSheet s0) 7).hasStyle a =
      (cloneSheet s0).hasStyle a ∧
    (clear_sheet_data_wl (cloneSheet s0) 7).hasStyle a =
      (cloneSheet s0).hasStyle a ∧
    (clear_sheet_data_auto (cloneSheet s0) 7).mergedRanges =
      (cloneSheet s0).mergedRanges ∧
    (clear_sheet_data_wl (cloneSheet s0) 7).mergedRanges =
      (cloneSheet s0).mergedRanges := by
  have hm : (cloneSheet s0).mergedCells = [] := rfl
  have hauto_cells : ∀ b : Addr, (clear_sheet_data_auto (cloneSheet s0) 7).cells b =
      if b ∈ rowColAddrs 7 (cloneSheet s0).maxRow (cloneSheet s0).maxCol then none
      else (cloneSheet s0).cells b := by
    intro b
    unfold clear_sheet_data_auto
    rw [foldl_setCellValue_none_cells]
  have hwl_cells : ∀ b : Addr, (clear_sheet_data_wl (cloneSheet s0) 7).cells b =
      if b ∈ rowColAddrs 7 (cloneSheet s0).maxRow (cloneSheet s0).maxCol then none
      else (cloneSheet s0).cells b := by
    intro b
    unfold clear_sheet_data_wl
    rw [foldl_safe_set_cell_none_cells]
    by_cases hbL : b ∈ rowColAddrs 7 (cloneSheet s0).maxRow (cloneSheet s0).maxCol
    · rw [if_pos hbL, if_pos ⟨b, hbL, resolveTarget_nomerge hm b⟩]
    · rw [if_neg hbL, if_neg ?_]
      rintro ⟨x, hxL, hxt⟩
      rw [resolveTarget_nomerge hm x] at hxt
      exact hbL ((Option.some_injective _ hxt) ▸ hxL)
  have hclear7 : ∀ b : Addr, 7 ≤ b.1 →
      (if b ∈ rowColAddrs 7 (cloneSheet s0).maxRow (cloneSheet s0).maxCol then none
        else (cloneSheet s0).cells b) = none := by
    intro b hb
    by_cases hin : b ∈ rowColAddrs 7 (cloneSheet s0).maxRow (cloneSheet s0).maxCol
    · rw [if_pos hin]
    · rw [if_neg hin]
      cases hc : (cloneSheet s0).cells b with
      | none => rfl
      | some v =>
        obtain ⟨h1, h2, h3⟩ := hW b (by rw [hc]; exact Option.some_ne_none v)
        exact absurd (mem_rowColAddrs.mpr ⟨hb, h1, h2, h3⟩) hin
  have hkeep : ∀ b : Addr, b.1 ≤ 6 →
      (if b ∈ rowColAddrs 7 (cloneSheet s0).maxRow (cloneSheet s0).maxCol then none
        else (cloneSheet s0).cells b) = (cloneSheet s0).cells b := by
    intro b hb
    rw [if_neg (fun hin => by
      have hr := (mem_rowColAddrs.mp hin).1
      omega)]
  refine ⟨fun h => by rw [hauto_cells a]; exact hclear7 a h,
    fun h => by rw [hwl_cells a]; exact hclear7 a h,
    fun h => by rw [hauto_cells a]; exact hkeep a h,
    fun h => by rw [hwl_cells a]; exact hkeep a h, ?_, ?_, ?_, ?_, ?_, ?_⟩
  · unfold clear_sheet_data_auto
    rw [foldl_setCellValue_none_fonts]
  · unfold clear_sheet_data_wl
    rw [foldl_safe_set_cell_none_fonts]
  · unfold clear_sheet_data_auto
    rw [foldl_setCellValue_none_hasStyle]
  · unfold clear_sheet_data_wl
    rw [foldl_safe_set_cell_none_hasStyle]
  · unfold clear_sheet_data_auto
    rw [foldl_setCellValue_none_mergedRanges]
  · unfold clear_sheet_data_wl
    rw [foldl_safe_set_cell_none_mergedRanges]

/-- Witness for C8 on the clone of `boundarySheet`: the boundary-crossing
merged range is harmless on a clone — A7 is cleared in place by either wipe
and the anchor A6 keeps its label. -/
theorem C8_cloned_wipe_witness :
    (clear_sheet_data_wl (cloneSheet boundarySheet) 7).cells (6, 1) =
      some (.str ("DATE")) ∧
    (clear_sheet_data_auto (cloneSheet boundarySheet) 7).cells (6, 1) =
      some (.str ("DATE")) ∧
    (clear_sheet_data_wl (cloneSheet boundarySheet) 7).cells (7, 1) = none ∧
    (clear_sheet_data_auto (cloneSheet boundarySheet) 7).cells (7, 1) = none := by
  have hW : ∀ b : Addr, (cloneSheet boundarySheet).cells b ≠ none →
      b.1 ≤ (cloneSheet boundarySheet).maxRow ∧ 1 ≤ b.2 ∧
        b.2 ≤ (cloneSheet boundarySheet).maxCol := by
    intro b hb
    by_cases h6 : b = ((6, 1) : Addr)
    · subst h6
      exact ⟨by decide, by decide, by decide⟩
    · exfalso
      apply hb
      show (if b = ((6, 1) : Addr) then some (CellVal.str ("DATE")) else none) = none
      rw [if_neg h6]
  have h6 := C8_cloned_wipe boundarySheet (6, 1) hW
  have h7 := C8_cloned_wipe boundarySheet (7, 1) hW
  refine ⟨?_, ?_, h7.2.1 (by decide), h7.1 (by decide)⟩
  · rw [h6.2.2.2.1 (by decide)]
    decide
  · rw [h6.2.2.1 (by decide)]
    decide

theorem toDigitsCore_len_ge (b : Nat) (f : Nat) : ∀ (n : Nat) (l : List Char),
    l.length ≤ (Nat.toDigitsCore b f n l).length := by
  induction f with
  | zero => intro n l; simp [Nat.toDigitsCore]
  | succ f ih =>
    intro n l
    rw [Nat.toDigitsCore]
    by_cases h : n / b = 0
    · rw [if_pos h]
      simp
    · rw [if_neg h]
      calc l.length ≤ (Nat.digitChar (n % b) :: l).length := by simp
        _ ≤ _ := ih (n / b) (Nat.digitChar (n % b) :: l)

theorem natRepr_length_pos (n : Nat) : 0 < (Nat.repr n).length := by
  show 0 < (Nat.toDigits 10 n).asString.length
  have h : (Nat.toDigits 10 n).asString.length = (Nat.toDigits 10 n).length := rfl
  rw [h]
  unfold Nat.toDigits
  rw [Nat.toDigitsCore]
  by_cases h2 : n / 10 = 0
  · rw [if_pos h2]; simp
  · rw [if_neg h2]
    calc 0 < (Nat.digitChar (n % 10) :: []).length := by simp
      _ ≤ _ := toDigitsCore_len_ge 10 n (n / 10) _

theorem append_natRepr_ne (s : String) (n : Nat) : s ++ toString n ≠ s := by
  intro he
  have hlen := congrArg String.length he
  rw [String.length_append] at hlen
  have h0 : (toString n : String).length = 0 := by omega
  have h1 := natRepr_length_pos n
  have h2 : (toString n : String) = Nat.repr n := rfl
  rw [h2] at h0
  omega

/-- A workbook that already contains a sheet titled like the date to clone. -/
def dupWb : Workbook :=
  ⟨[(("Template"), newWorksheet), (("05-01-2024"), newWorksheet)]⟩

/-- C9 counterexample: cloning the template under the already-present name
"05-01-2024" raises no error — no DuplicateNameError exists anywhere in the
repository — and silently succeeds under the deduplicated title
"05-01-20241". -/
theorem C9_counterexample :
    (cloneTemplate dupWb ("05-01-2024")).1.sheetnames =
      [("Template"), ("05-01-2024"), ("05-01-20241")] ∧
    (cloneTemplate dupWb ("05-01-2024")).2 = ("05-01-20241") := by
  decide

/-- C9 amended: cloning the template under a name already present in the
workbook does not fail; it appends exactly one sheet and silently retitles it
to newName followed by a positive numeric suffix (one plus the highest suffix
already in use), a title different from newName. -/
theorem C9_clone_duplicate_name (wb : Workbook) (newName : String) (tsh : Sheet)
    (h1 : wb.getSheet TEMPLATE_SHEET_NAME = some tsh)
    (h2 : newName ∈ wb.sheetnames)
    (h3 : avoid_duplicate_name wb.sheetnames (TEMPLATE_SHEET_NAME ++ (" Copy")) ≠
      newName) :
    (cloneTemplate wb newName).1.sheets.length = wb.sheets.length + 1 ∧
    (∃ k : Nat, 1 ≤ k ∧ (cloneTemplate wb newName).2 = newName ++ toString k) ∧
    (cloneTemplate wb newName).2 ≠ newName := by
  set t := avoid_duplicate_name wb.sheetnames (TEMPLATE_SHEET_NAME ++ (" Copy"))
    with ht
  have hcopy : copy_worksheet wb TEMPLATE_SHEET_NAME =
      (⟨wb.sheets ++ [(t, cloneSheet tsh)]⟩, t) := by
    unfold copy_worksheet
    rw [h1]
  have hcont : (Workbook.mk (wb.sheets ++ [(t, cloneSheet tsh)])).sheetnames.contains
      newName = true := by
    unfold Workbook.sheetnames
    rw [List.map_append]
    exact List.elem_iff.mpr (List.mem_append_left _ h2)
  have hdedup : avoid_duplicate_name
      (Workbook.mk (wb.sheets ++ [(t, cloneSheet tsh)])).sheetnames newName =
      newName ++ toString
        (((Workbook.mk (wb.sheets ++ [(t, cloneSheet tsh)])).sheetnames.filterMap
          (titleSuffixCount newName)).foldl max 0 + 1) := by
    unfold avoid_duplicate_name
    rw [if_pos hcont]
  unfold cloneTemplate
  rw [hcopy]
  unfold setSheetTitle
  dsimp only
  rw [if_neg h3, hdedup]
  refine ⟨?_, ⟨_, by omega, rfl⟩, append_natRepr_ne newName _⟩
  rw [List.length_map, List.length_append]
  rfl

/-- Witness for C9 amended at the concrete workbook with a clashing title. -/
theorem C9_clone_duplicate_name_witness :
    (cloneTemplate dupWb ("05-01-2024")).1.sheets.length = dupWb.sheets.length + 1 ∧
    (∃ k : Nat, 1 ≤ k ∧
      (cloneTemplate dupWb ("05-01-2024")).2 = ("05-01-2024") ++ toString k) ∧
    (cloneTemplate dupWb ("05-01-2024")).2 ≠ ("05-01-2024") :=
  C9_clone_duplicate_name dupWb ("05-01-2024") newWorksheet rfl (by decide)
    (by decide)

theorem headerFold_cells_ne (L : List String) (s : Sheet) (n : Nat) (a : Addr)
    (ha : a.1 ≠ 6) :
    ((L.foldl
      (fun (p : Sheet × Nat) h => (setCellValue p.1 (6, p.2) (some (.str h)), p.2 + 1))
      (s, n)).1).cells a = s.cells a := by
  induction L generalizing s n with
  | nil => rfl
  | cons x L ih =>
    rw [List.foldl_cons, ih, setCellValue_cells,
      if_neg (fun he => ha (congrArg Prod.fst he))]

/-- The template workbook of the no-dates scenario. -/
def templateWb : Workbook := ⟨[(("Template"), sampleSheet)]⟩

/-- The combined frame when no input files are given (`pd.DataFrame()`). -/
def emptyFrame : DataFrame := ⟨false, []⟩

/-- C4 counterexample: running the no-dates branch with no files and rate 25
records the degenerate range (7, 6) for the single daily sheet, and the
Aggregator therefore emits no summary row at all — row 4 of the Total sheet
stays empty, contradicting the claimed single summary row with zero hours. -/
theorem C4_counterexample :
    (runNoDates templateWb ("10-12-2026") emptyFrame 25).2 =
      [(("10-12-2026"), 7, 6)] ∧
    summaryRows [(("10-12-2026"), 7, 6)] = [] ∧
    (runNoDates templateWb ("10-12-2026") emptyFrame 25).1.sheetnames =
      [("Template"), ("10-12-2026"), ("Total")] ∧
    ((runNoDates templateWb ("10-12-2026") emptyFrame 25).1.getSheet
      ("Total")).map (fun ts => ts.cells (4, 2)) = some none ∧
    ((runNoDates templateWb ("10-12-2026") emptyFrame 25).1.getSheet
      ("Total")).map (fun ts => ts.cells (4, 3)) = some none := by
  decide

theorem modifySheet_sheetnames (wb : Workbook) (t : String) (f : Sheet → Sheet) :
    (wb.modifySheet t f).sheetnames = wb.sheetnames := by
  unfold Workbook.modifySheet Workbook.sheetnames
  rw [List.map_map]
  congr 1
  funext q
  by_cases h : q.1 = t <;> simp [h]

theorem clear_sampleSheet_cells (a : Addr) :
    (clear_sheet_data_auto sampleSheet 7).cells a = none := by
  unfold clear_sheet_data_auto
  rw [foldl_setCellValue_none_cells]
  split_ifs <;> rfl

/-- C4 amended: run with no dates, no input files and any rate, the program
produces exactly one daily sheet, named with the current date, containing zero
data rows — and the Total sheet contains NO summary row for it: the recorded
range (7, 6) is degenerate and the Aggregator skips it, leaving every cell
from row 4 down empty. -/
theorem C4_no_dates_run (today : String) (rate : Rat)
    (hT : today ≠ ("Template")) (hC : today ≠ ("Template Copy"))
    (hO : today ≠ ("Total")) :
    (runNoDates templateWb today emptyFrame rate).2 = [(today, ((7 : Int), (6 : Int)))] ∧
    (runNoDates templateWb today emptyFrame rate).1.sheetnames =
      [("Template"), today, ("Total")] ∧
    (∀ dSheet : Sheet,
      (runNoDates templateWb today emptyFrame rate).1.getSheet today = some dSheet →
        ∀ a : Addr, 7 ≤ a.1 → dSheet.cells a = none) ∧
    (∀ tSheet : Sheet,
      (runNoDates templateWb today emptyFrame rate).1.getSheet ("Total") =
          some tSheet →
        ∀ a : Addr, 4 ≤ a.1 → tSheet.cells a = none) := by
  have hbT : ((("Template") : String) == today) = false :=
    beq_eq_false_iff_ne.mpr (fun h => hT h.symm)
  have hbC : ((("Template Copy") : String) == today) = false :=
    beq_eq_false_iff_ne.mpr (fun h => hC h.symm)
  -- the clone step: copy "Template" as "Template Copy", retitle to today
  have hcopy : copy_worksheet templateWb TEMPLATE_SHEET_NAME =
      (⟨[(("Template"), sampleSheet), (("Template Copy"), sampleSheet)]⟩,
        ("Template Copy")) := rfl
  have hav : avoid_duplicate_name
      (Workbook.mk [(("Template"), sampleSheet),
        (("Template Copy"), sampleSheet)]).sheetnames today = today := by
    unfold avoid_duplicate_name
    rw [if_neg ?_]
    intro hcn
    have hmem : today ∈ [(("Template") : String), ("Template Copy")] :=
      List.elem_iff.mp hcn
    simp only [List.mem_cons, List.not_mem_nil, or_false] at hmem
    rcases hmem with h | h
    · exact hT h
    · exact hC h
  have hsettitle : setSheetTitle
      ⟨[(("Template"), sampleSheet), (("Template Copy"), sampleSheet)]⟩
      ("Template Copy") today =
      (⟨[(("Template"), sampleSheet), (today, sampleSheet)]⟩, today) := by
    unfold setSheetTitle
    rw [if_neg (fun h => hC h.symm)]
    dsimp only
    rw [hav]
    rfl
  have hclone : cloneTemplate templateWb today =
      (⟨[(("Template"), sampleSheet), (today, sampleSheet)]⟩, today) := by
    unfold cloneTemplate
    rw [hcopy]
    exact hsettitle
  -- the fill step
  have hfill2 : (fill_daily_sheet_auto (clear_sheet_data_auto sampleSheet 7) today
      emptyFrame true 7 (some today) today).2 = (6 : Int) := rfl
  have hfind : List.find? (fun p => p.1 == today)
      [(("Template"), sampleSheet), (today, sampleSheet)] =
      some (today, sampleSheet) := by
    rw [List.find?_cons_of_neg _ (by rw [hbT]; exact Bool.false_ne_true),
      List.find?_cons_of_pos _ (by exact beq_self_eq_true today)]
  have hmod : (Workbook.mk [(("Template"), sampleSheet),
      (today, sampleSheet)]).modifySheetR today
      (fun sh => fill_daily_sheet_auto (clear_sheet_data_auto sh 7) today
        emptyFrame true 7 (some today) today) =
      (⟨[(("Template"), sampleSheet),
        (today, (fill_daily_sheet_auto (clear_sheet_data_auto sampleSheet 7) today
          emptyFrame true 7 (some today) today).1)]⟩, (6 : Int)) := by
    unfold Workbook.modifySheetR Workbook.getSheet
    rw [hfind]
    dsimp only [Option.map_some']
    simp only [List.map_cons, List.map_nil]
    rw [if_neg (fun h : (("Template") : String) = today => hT h.symm)]
    rw [if_pos (trivial : True), hfill2]
  have hrun : runNoDates templateWb today emptyFrame rate =
      (create_or_update_total_sheet
        (⟨[(("Template"), sampleSheet),
          (today, (fill_daily_sheet_auto (clear_sheet_data_auto sampleSheet 7) today
            emptyFrame true 7 (some today) today).1)]⟩)
        [(today, ((7 : Int), (6 : Int)))] rate,
       [(today, ((7 : Int), (6 : Int)))]) := by
    unfold runNoDates
    rw [hclone]
    dsimp only
    rw [hmod]
  -- the Total-sheet step: "Total" is absent, so a fresh sheet is appended
  have hconT : (Workbook.mk [(("Template"), sampleSheet),
      (today, (fill_daily_sheet_auto (clear_sheet_data_auto sampleSheet 7) today
        emptyFrame true 7 (some today) today).1)]).sheetnames.contains
      TOTAL_SHEET_NAME = false := by
    cases hx : (Workbook.mk [(("Template"), sampleSheet),
        (today, (fill_daily_sheet_auto (clear_sheet_data_auto sampleSheet 7) today
          emptyFrame true 7 (some today) today).1)]).sheetnames.contains
        TOTAL_SHEET_NAME
    · rfl
    · exfalso
      have hmem : (("Total") : String) ∈ [(("Template") : String), today] :=
        List.elem_iff.mp hx
      simp only [List.mem_cons, List.not_mem_nil, or_false] at hmem
      rcases hmem with h | h
      · exact absurd h (by decide)
      · exact hO h.symm
  rw [hrun]
  refine ⟨rfl, ?_, ?_, ?_⟩
  · unfold create_or_update_total_sheet
    rw [hconT, if_neg Bool.false_ne_true, modifySheet_sheetnames]
    rfl
  · intro dSheet hget a ha
    unfold create_or_update_total_sheet at hget
    rw [hconT, if_neg Bool.false_ne_true] at hget
    unfold Workbook.modifySheet Workbook.getSheet at hget
    simp only [List.map_append, List.map_cons, List.map_nil] at hget
    rw [if_neg (fun h : (("Template") : String) = TOTAL_SHEET_NAME =>
        absurd h (by decide)),
      if_neg (fun h : today = TOTAL_SHEET_NAME => hO h),
      if_pos (trivial : True)] at hget
    simp only [List.cons_append, List.nil_append] at hget
    rw [List.find?_cons_of_neg _ (by rw [hbT]; exact Bool.false_ne_true),
      List.find?_cons_of_pos _ (by exact beq_self_eq_true today)] at hget
    simp only [Option.map_some', Option.some_inj] at hget
    subst hget
    -- the filled daily sheet has empty cells from row 7 down
    have hfill1 : (fill_daily_sheet_auto (clear_sheet_data_auto sampleSheet 7) today
        emptyFrame true 7 (some today) today).1 =
        writeHeaderRow
          { setCellValue (setCellValue (clear_sheet_data_auto sampleSheet 7) (1, 2)
              (some (.str today))) (3, 2) (some (.str today)) with
            freezePanes := some (7, 1) } := rfl
    rw [hfill1]
    unfold writeHeaderRow
    rw [headerFold_cells_ne _ _ _ _ (by omega)]
    show (setCellValue (setCellValue (clear_sheet_data_auto sampleSheet 7) (1, 2)
      (some (.str today))) (3, 2) (some (.str today))).cells a = none
    rw [setCellValue_cells, if_neg (fun he => by
        have := congrArg Prod.fst he
        omega),
      setCellValue_cells, if_neg (fun he => by
        have := congrArg Prod.fst he
        omega)]
    exact clear_sampleSheet_cells a
  · intro tSheet hget a ha
    have hbO : (today == TOTAL_SHEET_NAME) = false :=
      beq_eq_false_iff_ne.mpr hO
    unfold create_or_update_total_sheet at hget
    rw [hconT, if_neg Bool.false_ne_true] at hget
    unfold Workbook.modifySheet Workbook.getSheet at hget
    simp only [List.map_append, List.map_cons, List.map_nil] at hget
    rw [if_neg (fun h : (("Template") : String) = TOTAL_SHEET_NAME =>
        absurd h (by decide)),
      if_neg (fun h : today = TOTAL_SHEET_NAME => hO h),
      if_pos (trivial : True)] at hget
    simp only [List.cons_append, List.nil_append] at hget
    rw [List.find?_cons_of_neg _ (by
        intro hx
        have hx2 : ((("Template") : String) == TOTAL_SHEET_NAME) = true := hx
        exact absurd hx2 (by decide)),
      List.find?_cons_of_neg _ (by
        intro hx
        have hx2 : (today == TOTAL_SHEET_NAME) = true := hx
        rw [hbO] at hx2
        exact Bool.false_ne_true hx2),
      List.find?_cons_of_pos _ (by exact beq_self_eq_true TOTAL_SHEET_NAME)] at hget
    simp only [Option.map_some', Option.some_inj] at hget
    subst hget
    dsimp only
    have hupd : update_total_sheet
        (safe_set_cell (safe_set_cell (safe_set_cell (safe_set_cell newWorksheet
          (3, 2) (some (CellVal.str ("Date")))) (3, 3) (some (CellVal.str ("Hour"))))
          (3, 4) (some (CellVal.str ("Rate")))) (3, 5)
          (some (CellVal.str ("Total Cost"))))
        [(today, ((7 : Int), (6 : Int)))] rate =
        safe_set_cell (safe_set_cell (safe_set_cell (safe_set_cell newWorksheet
          (3, 2) (some (CellVal.str ("Date")))) (3, 3) (some (CellVal.str ("Hour"))))
          (3, 4) (some (CellVal.str ("Rate")))) (3, 5)
          (some (CellVal.str ("Total Cost"))) := rfl
    rw [hupd]
    have hne : ∀ c : Nat, a ≠ (3, c) := by
      rintro c rfl
      omega
    rw [safe_set_cell_cells_nomerge rfl, if_neg (hne 5),
      safe_set_cell_cells_nomerge rfl, if_neg (hne 4),
      safe_set_cell_cells_nomerge rfl, if_neg (hne 3),
      safe_set_cell_cells_nomerge rfl, if_neg (hne 2)]
    rfl

/-- Witness for C4 amended at a concrete current date and the rate 25. -/
theorem C4_no_dates_run_witness :
    (runNoDates templateWb ("10-12-2026") emptyFrame 25).2 =
      [(("10-12-2026"), ((7 : Int), (6 : Int)))] ∧
    (runNoDates templateWb ("10-12-2026") emptyFrame 25).1.sheetnames =
      [("Template"), ("10-12-2026"), ("Total")] :=
  ⟨(C4_no_dates_run ("10-12-2026") 25 (by decide) (by decide) (by decide)).1,
   (C4_no_dates_run ("10-12-2026") 25 (by decide) (by decide) (by decide)).2.1⟩
